import Mathlib

/-!
# Verification of the rusty-lens query/filter engine

Shallow embedding of the filter pipeline, time-expression parsers and the
range-picker state machine of the `rusty-lens` timeline viewer
(`src/timeline.rs`, `src/filters.rs`, `src/tui/app.rs`).

Modelling conventions:
* Rust `&str` / `String` values are embedded as `List Char` (`Str`), so that
  every operation is structurally recursive and kernel-reducible.
* `chrono::NaiveDateTime` is embedded as an `Int` counting milliseconds since
  1970-01-01 00:00:00 (the `%.3f` formats carry millisecond precision, which
  this unit captures exactly); `chrono::NaiveDate` as an `Int` counting days
  since 1970-01-01.  Civil (year/month/day) conversions use the standard
  Gregorian `days_from_civil` / `civil_from_days` algorithms, the same
  calendar chrono implements.  chrono's representable-year bounds are not
  modelled (dates are unbounded), and `NaiveDate::pred_opt` is embedded as
  total subtraction of one day.
* Rust `char::to_lowercase` / `is_whitespace` are embedded via Lean's
  `Char.toLower` / `Char.isWhitespace` (ASCII coverage; all inputs exercised
  by the claims are ASCII apart from one explicit multi-byte probe which both
  functions leave unchanged).
* `HashSet` collection followed by `sort` is embedded as insertion into a
  strictly sorted list (`insertSortedUnique`): both produce the ascending
  list of distinct values.
* Rust string slicing `&s[..10]` panics when byte offset 10 is not a char
  boundary.  `parse_time_core` makes that panic explicit as `Except.error`;
  the total wrapper `parse_time` maps the panic case to `none` and the
  predicate `parse_time_panics` marks exactly the panicking inputs, so that
  theorems can hypothesise panic-freedom where the Rust code would crash.
-/

namespace RustyLens

/-- Rust strings, embedded as their character sequences. -/
abbrev Str := List Char

/-- `str::to_lowercase`, character-wise (ASCII range, see header). -/
def toLowerStr (s : Str) : Str := s.map Char.toLower

/-- Drop leading whitespace (half of `str::trim`). -/
def trimLeft (s : Str) : Str := s.dropWhile Char.isWhitespace

/-- `str::trim`: drop leading and trailing whitespace. -/
def trim (s : Str) : Str := (trimLeft ((trimLeft s.reverse).reverse))

/-- `str::trim_matches('"')`: strip all leading and trailing `"` characters. -/
def trimQuotes (s : Str) : Str :=
  (((s.dropWhile (· == '\x22')).reverse.dropWhile (· == '\x22')).reverse)

/-- Accumulator pass for `str::split_whitespace`. -/
def splitWsAux : Str → Str → List Str
  | [], acc => if acc = [] then [] else [acc.reverse]
  | c :: cs, acc =>
    if c.isWhitespace then
      if acc = [] then splitWsAux cs [] else acc.reverse :: splitWsAux cs []
    else splitWsAux cs (c :: acc)

/-- `str::split_whitespace`: maximal runs of non-whitespace characters. -/
def splitWhitespace (s : Str) : List Str := splitWsAux s []

/-- `str::contains(&str)`: substring test. -/
def substr (needle hay : Str) : Bool := hay.tails.any (fun t => needle.isPrefixOf t)

/-- `str::strip_prefix`. -/
def stripPrefixStr (pat s : Str) : Option Str :=
  if pat.isPrefixOf s then some (s.drop pat.length) else none

/-- `str::split_once(pat)`: split at the first occurrence of `pat`
(callers in this code base only use non-empty patterns). -/
def splitOnceStr (pat : Str) : Str → Option (Str × Str)
  | [] => none
  | c :: cs =>
    if pat.isPrefixOf (c :: cs) then some ([], (c :: cs).drop pat.length)
    else (splitOnceStr pat cs).map (fun p => (c :: p.1, p.2))

/-- UTF-8 byte length of a string (Rust `str::len`). -/
def utf8Len (s : Str) : Nat := (s.map Char.utf8Size).sum

/-- Take the characters covering exactly `n` leading UTF-8 bytes; `none` when
byte offset `n` falls strictly inside a character (Rust `&s[..n]` panics
there) or the string is shorter than `n` bytes. -/
def byteTakeAux : Nat → Str → Option Str
  | 0, _ => some []
  | _ + 1, [] => none
  | n + 1, c :: cs =>
    if c.utf8Size ≤ n + 1 then (byteTakeAux (n + 1 - c.utf8Size) cs).map (fun t => c :: t)
    else none

/-- Digits of a decimal number as a numeric value. -/
def digitsToNat (ds : Str) : Nat := ds.foldl (fun a c => a * 10 + (c.toNat - 48)) 0

/-- Zero-padded decimal rendering of a `Nat` (chrono's padded numeric output). -/
def padNat (w n : Nat) : Str :=
  let ds := Nat.toDigits 10 n
  List.replicate (w - ds.length) '0' ++ ds

/-- Decimal rendering of a `Nat` (`format!("{}")`). -/
def natStr (n : Nat) : Str := Nat.toDigits 10 n

/-! ## Calendar arithmetic (chrono `NaiveDate` / `NaiveDateTime` model) -/

/-- Milliseconds per day. -/
def msPerDay : Int := 86400000

/-- Gregorian leap-year test. -/
def isLeap (y : Int) : Bool := y % 4 = 0 && (y % 100 ≠ 0 || y % 400 = 0)

/-- Days in a Gregorian month. -/
def daysInMonth (y : Int) (m : Nat) : Nat :=
  if m = 2 then (if isLeap y then 29 else 28)
  else if m = 4 || m = 6 || m = 9 || m = 11 then 30
  else 31

/-- Day count since 1970-01-01 of a civil date (Hinnant's `days_from_civil`). -/
def daysFromCivil (y : Int) (m d : Nat) : Int :=
  let y' : Int := if m ≤ 2 then y - 1 else y
  let era : Int := (if 0 ≤ y' then y' else y' - 399) / 400
  let yoe : Int := y' - era * 400
  let mp : Int := ((m : Int) + 9) % 12
  let doy : Int := (153 * mp + 2) / 5 + (d : Int) - 1
  let doe : Int := yoe * 365 + yoe / 4 - yoe / 100 + doy
  era * 146097 + doe - 719468

/-- Civil date (year, month, day) of a day count (Hinnant's `civil_from_days`). -/
def civilFromDays (z0 : Int) : Int × Nat × Nat :=
  let z : Int := z0 + 719468
  let era : Int := (if 0 ≤ z then z else z - 146096) / 146097
  let doe : Int := z - era * 146097
  let yoe : Int := (doe - doe / 1460 + doe / 36524 - doe / 146096) / 365
  let y : Int := yoe + era * 400
  let doy : Int := doe - (365 * yoe + yoe / 4 - yoe / 100)
  let mp : Int := (5 * doy + 2) / 153
  let d : Int := doy - (153 * mp + 2) / 5 + 1
  let m : Int := if mp < 10 then mp + 3 else mp - 9
  ((if m ≤ 2 then y + 1 else y), m.toNat, d.toNat)

/-- `NaiveDateTime` (ms since epoch) from a day count and `and_hms` fields.
All call sites of chrono's `and_hms_opt(h, m, s).unwrap()` in the source use
in-range components, so the embedding is the total arithmetic value. -/
def andHms (day : Int) (h m s : Nat) : Int :=
  day * msPerDay + ((h : Int) * 3600000 + (m : Int) * 60000 + (s : Int) * 1000)

/-- `NaiveDateTime::date` as a day count (floor division). -/
def dateOf (t : Int) : Int := t / msPerDay

/-- `Timelike::hour` of a `NaiveDateTime`. -/
def hourOf (t : Int) : Nat := ((t % msPerDay) / 3600000).toNat

/-- Convenience constructor for concrete instants in witnesses. -/
def mkDT (y : Int) (mo d h mi s : Nat) : Int := andHms (daysFromCivil y mo d) h mi s

/-- chrono's `%Y-%m-%d %H:%M` formatting, used for flash messages. -/
def fmtYmdHm (t : Int) : Str :=
  let c := civilFromDays (dateOf t)
  let ms : Int := t % msPerDay
  let yearStr : Str := if c.1 < 0 then '-' :: padNat 4 (-c.1).toNat else padNat 4 c.1.toNat
  yearStr ++ [ '-' ] ++ padNat 2 c.2.1 ++ [ '-' ] ++ padNat 2 c.2.2 ++ [ ' ' ] ++
    padNat 2 (ms / 3600000).toNat ++ [ ':' ] ++ padNat 2 ((ms % 3600000) / 60000).toNat

/-! ## Absolute timestamp parser (`timeline.rs::parse_time`)

The fixed format list of the source is

  `%Y-%m-%dT%H:%M:%S%.3f`, `%Y-%m-%dT%H:%M:%S`, `%Y-%m-%d %H:%M:%S%.3f`,
  `%Y-%m-%d %H:%M:%S`, `%Y-%m-%d %H:%M`, `%Y-%m-%d`,

tried via `NaiveDateTime::parse_from_str`, which requires the whole input to
be consumed and rejects a date-only format (no time fields), so the final
`%Y-%m-%d` entry always fails there and is reached only through the explicit
`NaiveDate` fallback on the first 10 bytes.  Numeric fields are parsed as in
chrono's scanner: greedily, at least one and at most `max` digits (4 for the
year — the model covers non-negative years — and 2 for the other fields);
`%.3f` consumes either nothing or a dot followed by exactly 3 digits. -/

/-- Greedy bounded digit scan: at least one, at most `max` digits. -/
def parseNumMax (max : Nat) (s : Str) : Option (Nat × Str) :=
  let digits := (s.takeWhile Char.isDigit).take max
  if digits = [] then none else some (digitsToNat digits, s.drop digits.length)

/-- Consume one expected literal character. -/
def expectChar (c : Char) : Str → Option Str
  | [] => none
  | x :: xs => if x = c then some xs else none

/-- Parse `%Y-%m-%d` with calendar validation; yields the day count and rest. -/
def parseYmd (s : Str) : Option (Int × Str) := do
  let (y, s) ← parseNumMax 4 s
  let s ← expectChar '-' s
  let (m, s) ← parseNumMax 2 s
  let s ← expectChar '-' s
  let (d, s) ← parseNumMax 2 s
  if 1 ≤ m && m ≤ 12 && 1 ≤ d && d ≤ daysInMonth (y : Int) m then
    some (daysFromCivil (y : Int) m d, s)
  else none

/-- Parse `%H:%M` with range validation; yields milliseconds-of-day and rest. -/
def parseHm (s : Str) : Option (Int × Str) := do
  let (h, s) ← parseNumMax 2 s
  let s ← expectChar ':' s
  let (mi, s) ← parseNumMax 2 s
  if h ≤ 23 && mi ≤ 59 then some ((h : Int) * 3600000 + (mi : Int) * 60000, s) else none

/-- Parse `%H:%M:%S`; yields milliseconds-of-day and rest. -/
def parseHms (s : Str) : Option (Int × Str) := do
  let (hm, s) ← parseHm s
  let s ← expectChar ':' s
  let (sec, s) ← parseNumMax 2 s
  if sec ≤ 59 then some (hm + (sec : Int) * 1000, s) else none

/-- Parse `%.3f`: nothing, or a dot followed by exactly 3 digits (ms). -/
def parseFrac3 (s : Str) : Option (Int × Str) :=
  match s with
  | '.' :: rest =>
    let digits := rest.takeWhile Char.isDigit
    if digits.length = 3 then some ((digitsToNat digits : Int), rest.drop 3) else none
  | _ => some (0, s)

/-- Time-of-day precision of one format entry. -/
inductive TimePrec where
  | secFrac
  | sec
  | minOnly
deriving DecidableEq

/-- One `NaiveDateTime::parse_from_str` attempt: date, separator, time at the
given precision, full consumption required. -/
def parseDateTimeFmt (sep : Char) (prec : TimePrec) (s : Str) : Option Int := do
  let (day, s) ← parseYmd s
  let s ← expectChar sep s
  let (ms, s) ←
    match prec with
    | .minOnly => parseHm s
    | .sec => parseHms s
    | .secFrac => do
      let (base, s) ← parseHms s
      let (f, s) ← parseFrac3 s
      pure (base + f, s)
  if s = [] then some (day * msPerDay + ms) else none

/-- The `FORMATS` list of `parse_time`, as the result of each attempt in
order; the trailing `none` is the date-only `%Y-%m-%d` entry, which
`NaiveDateTime::parse_from_str` always rejects for lack of time fields. -/
def formatResults (s : Str) : List (Option Int) :=
  [parseDateTimeFmt 'T' .secFrac s, parseDateTimeFmt 'T' .sec s,
   parseDateTimeFmt ' ' .secFrac s, parseDateTimeFmt ' ' .sec s,
   parseDateTimeFmt ' ' .minOnly s, none]

/-- First successful parse among the format attempts. -/
def firstSome : List (Option Int) → Option Int
  | [] => none
  | some x :: _ => some x
  | none :: rest => firstSome rest

/-- `NaiveDate::parse_from_str(_, "%Y-%m-%d")`: full consumption required. -/
def parseDateFull (s : Str) : Option Int :=
  match parseYmd s with
  | some (day, []) => some day
  | _ => none

/-- The input normalisation of `parse_time`:
`s.trim().trim_matches('"').trim()`. -/
def cleanInput (s : Str) : Str := trim (trimQuotes (trim s))

/-- `timeline.rs::parse_time` with the Rust panic made explicit: the
`&s[..10]` fallback slice panics (`Except.error`) when byte offset 10 is not
a char boundary; every other path returns `Except.ok` with the parse result
(`none` = chrono "no match"). -/
def parse_time_core (s0 : Str) : Except Unit (Option Int) :=
  let s := cleanInput s0
  if s = [] then .ok none
  else
    match firstSome (formatResults s) with
    | some dt => .ok (some dt)
    | none =>
      if 10 ≤ utf8Len s then
        match byteTakeAux 10 s with
        | none => .error ()
        | some pre => .ok ((parseDateFull pre).map (fun d => andHms d 0 0 0))
      else .ok none

/-- Total wrapper of `parse_time_core`; the (buggy) panic path is mapped to
`none` and flagged separately by `parse_time_panics`. -/
def parse_time (s : Str) : Option Int :=
  match parse_time_core s with
  | .ok r => r
  | .error _ => none

/-- `true` exactly on the inputs where the Rust `parse_time` panics
(byte offset 10 of the cleaned input falls inside a multi-byte character). -/
def parse_time_panics (s : Str) : Bool :=
  match parse_time_core s with
  | .ok _ => false
  | .error _ => true

/-! ## Relative range parser (`timeline.rs::parse_relative_range`) -/

/-- `timeline.rs::parse_relative_range`: fixed vocabulary of relative ranges,
resolved against the reference instant `now`; returns `(start?, end?)`. -/
def parse_relative_range (s0 : Str) (now : Int) : Option (Option Int × Option Int) :=
  let s := toLowerStr (trim s0)
  if s = [] then none
  else
    let date := dateOf now
    let startOfToday := andHms date 0 0 0
    let endOfToday := andHms date 23 59 59
    if s = "today".data then some (some startOfToday, some endOfToday)
    else if s = "yesterday".data then
      some (some (andHms (date - 1) 0 0 0), some (andHms (date - 1) 23 59 59))
    else if s = "last 24 hours".data || s = "last 24h".data || s = "24h".data then
      some (some (now - 24 * 3600000), some now)
    else if s = "last 7 days".data || s = "last 7d".data || s = "7d".data then
      some (some (andHms (dateOf (now - 7 * msPerDay)) 0 0 0), some now)
    else if s = "last 30 days".data || s = "last 30d".data || s = "30d".data then
      some (some (andHms (dateOf (now - 30 * msPerDay)) 0 0 0), some now)
    else if s = "last 1 hour".data || s = "last 1h".data || s = "1h".data then
      some (some (now - 1 * 3600000), some now)
    else if s = "last 12 hours".data || s = "last 12h".data || s = "12h".data then
      some (some (now - 12 * 3600000), some now)
    else none

/-- The full relative vocabulary (§6 of the spec; the match arms of
`parse_relative_range`). -/
def relative_vocab : List Str :=
  ["today".data, "yesterday".data,
   "last 24 hours".data, "last 24h".data, "24h".data,
   "last 7 days".data, "last 7d".data, "7d".data,
   "last 30 days".data, "last 30d".data, "30d".data,
   "last 1 hour".data, "last 1h".data, "1h".data,
   "last 12 hours".data, "last 12h".data, "12h".data]

/-! ## The event record (`timeline.rs::TimelineEvent`)

One device-timeline row; absent CSV cells deserialize as `none`. -/

structure TimelineEvent where
  event_time : Option Str := none
  machine_id : Option Str := none
  computer_name : Option Str := none
  action_type : Option Str := none
  file_name : Option Str := none
  folder_path : Option Str := none
  sha1 : Option Str := none
  sha256 : Option Str := none
  md5 : Option Str := none
  process_command_line : Option Str := none
  account_domain : Option Str := none
  account_name : Option Str := none
  account_sid : Option Str := none
  logon_id : Option Str := none
  process_id : Option Str := none
  process_creation_time : Option Str := none
  process_token_elevation : Option Str := none
  registry_key : Option Str := none
  registry_value_name : Option Str := none
  registry_value_data : Option Str := none
  remote_url : Option Str := none
  remote_computer_name : Option Str := none
  remote_ip : Option Str := none
  remote_port : Option Str := none
  local_ip : Option Str := none
  local_port : Option Str := none
  file_origin_url : Option Str := none
  file_origin_ip : Option Str := none
  initiating_process_sha1 : Option Str := none
  initiating_process_sha256 : Option Str := none
  initiating_process_file_name : Option Str := none
  initiating_process_folder_path : Option Str := none
  initiating_process_id : Option Str := none
  initiating_process_command_line : Option Str := none
  initiating_process_creation_time : Option Str := none
  initiating_process_integrity_level : Option Str := none
  initiating_process_token_elevation : Option Str := none
  initiating_process_parent_id : Option Str := none
  initiating_process_parent_file_name : Option Str := none
  initiating_process_parent_creation_time : Option Str := none
  initiating_process_md5 : Option Str := none
  initiating_process_account_domain : Option Str := none
  initiating_process_account_name : Option Str := none
  initiating_process_account_sid : Option Str := none
  initiating_process_logon_id : Option Str := none
  report_id : Option Str := none
  additional_fields : Option Str := none
  typed_details : Option Str := none
  app_guard_container_id : Option Str := none
  protocol : Option Str := none
  logon_type : Option Str := none
  process_integrity_level : Option Str := none
  registry_value_type : Option Str := none
  previous_registry_value_name : Option Str := none
  previous_registry_value_data : Option Str := none
  previous_registry_key : Option Str := none
  file_origin_referrer_url : Option Str := none
  sensitivity_label : Option Str := none
  sensitivity_sub_label : Option Str := none
  is_endpoint_dlp_applied : Option Str := none
  is_azure_info_protection_applied : Option Str := none
  alert_ids : Option Str := none
  categories : Option Str := none
  severities : Option Str := none
  is_marked : Option Str := none
  data_type : Option Str := none
deriving DecidableEq

instance : Inhabited TimelineEvent := ⟨{}⟩

namespace TimelineEvent

/-- `TimelineEvent::event_time_parsed` (total model; see `parse_time`). -/
def event_time_parsed (e : TimelineEvent) : Option Int := e.event_time.bind parse_time

/-- `true` when parsing this record's event time cannot hit the Rust panic in
`parse_time` (hypothesised by theorems that evaluate the real code path). -/
def event_time_no_panic (e : TimelineEvent) : Bool :=
  match e.event_time with
  | some s => !parse_time_panics s
  | none => true

/-- `TimelineEvent::in_time_range`: `true` iff the parsed event time lies in
the inclusive `[start, end]` (a missing bound constrains nothing); a record
with no parsed time passes iff both bounds are absent.  The source's
early-return chain is written as the equivalent conjunction. -/
def in_time_range (e : TimelineEvent) (startB endB : Option Int) : Bool :=
  match e.event_time_parsed with
  | none => startB.isNone && endB.isNone
  | some t =>
    (match startB with | some s => decide (s ≤ t) | none => true) &&
    (match endB with | some en => decide (t ≤ en) | none => true)

/-- The `unwrap_or` fallback of `list_line`'s action column: the source file
literally contains the three characters `â€”` (mojibake of an em dash). -/
def actionFallback : Str := "â€”".data

/-- `TimelineEvent::list_line`: `time | action | file-or-computer`. -/
def list_line (e : TimelineEvent) : Str :=
  let time := trimQuotes (e.event_time.getD [])
  let action := e.action_type.getD actionFallback
  let file := trimQuotes ((e.file_name.or e.initiating_process_file_name).getD [])
  let computer := trimQuotes (e.computer_name.getD [])
  if file = [] then time ++ " | ".data ++ action ++ " | ".data ++ computer
  else time ++ " | ".data ++ action ++ " | ".data ++ file

/-- The ordered `(label, value)` pairs `detail_lines` pushes, as in the
source's call sequence. -/
def detailFields (e : TimelineEvent) : List (Str × Option Str) :=
  [("Event Time".data, e.event_time),
   ("Machine Id".data, e.machine_id),
   ("Computer Name".data, e.computer_name),
   ("Action Type".data, e.action_type),
   ("File Name".data, e.file_name),
   ("Folder Path".data, e.folder_path),
   ("Sha1".data, e.sha1),
   ("Sha256".data, e.sha256),
   ("MD5".data, e.md5),
   ("Process Command Line".data, e.process_command_line),
   ("Account Domain".data, e.account_domain),
   ("Account Name".data, e.account_name),
   ("Account Sid".data, e.account_sid),
   ("Logon Id".data, e.logon_id),
   ("Process Id".data, e.process_id),
   ("Process Creation Time".data, e.process_creation_time),
   ("Process Token Elevation".data, e.process_token_elevation),
   ("Registry Key".data, e.registry_key),
   ("Registry Value Name".data, e.registry_value_name),
   ("Registry Value Data".data, e.registry_value_data),
   ("Remote Url".data, e.remote_url),
   ("Remote Computer Name".data, e.remote_computer_name),
   ("Remote IP".data, e.remote_ip),
   ("Remote Port".data, e.remote_port),
   ("Local IP".data, e.local_ip),
   ("Local Port".data, e.local_port),
   ("File Origin Url".data, e.file_origin_url),
   ("File Origin IP".data, e.file_origin_ip),
   ("Initiating Process SHA1".data, e.initiating_process_sha1),
   ("Initiating Process SHA256".data, e.initiating_process_sha256),
   ("Initiating Process File Name".data, e.initiating_process_file_name),
   ("Initiating Process Folder Path".data, e.initiating_process_folder_path),
   ("Initiating Process Id".data, e.initiating_process_id),
   ("Initiating Process Command Line".data, e.initiating_process_command_line),
   ("Initiating Process Creation Time".data, e.initiating_process_creation_time),
   ("Initiating Process Integrity Level".data, e.initiating_process_integrity_level),
   ("Initiating Process Token Elevation".data, e.initiating_process_token_elevation),
   ("Initiating Process Parent Id".data, e.initiating_process_parent_id),
   ("Initiating Process Parent File Name".data, e.initiating_process_parent_file_name),
   ("Initiating Process Parent Creation Time".data, e.initiating_process_parent_creation_time),
   ("Initiating Process MD5".data, e.initiating_process_md5),
   ("Initiating Process Account Domain".data, e.initiating_process_account_domain),
   ("Initiating Process Account Name".data, e.initiating_process_account_name),
   ("Initiating Process Account Sid".data, e.initiating_process_account_sid),
   ("Initiating Process Logon Id".data, e.initiating_process_logon_id),
   ("Report Id".data, e.report_id),
   ("Additional Fields".data, e.additional_fields),
   ("Typed Details".data, e.typed_details),
   ("App Guard Container Id".data, e.app_guard_container_id),
   ("Protocol".data, e.protocol),
   ("Logon Type".data, e.logon_type),
   ("Process Integrity Level".data, e.process_integrity_level),
   ("Registry Value Type".data, e.registry_value_type),
   ("Previous Registry Value Name".data, e.previous_registry_value_name),
   ("Previous Registry Value Data".data, e.previous_registry_value_data),
   ("Previous Registry Key".data, e.previous_registry_key),
   ("File Origin Referrer Url".data, e.file_origin_referrer_url),
   ("Sensitivity Label".data, e.sensitivity_label),
   ("Sensitivity Sub Label".data, e.sensitivity_sub_label),
   ("Is Endpoint Dlp Applied".data, e.is_endpoint_dlp_applied),
   ("Is Azure Info Protection Applied".data, e.is_azure_info_protection_applied),
   ("Alert Ids".data, e.alert_ids),
   ("Categories".data, e.categories),
   ("Severities".data, e.severities),
   ("Is Marked".data, e.is_marked),
   ("Data Type".data, e.data_type)]

/-- `TimelineEvent::detail_lines`: each present value is stripped of
surrounding quotes then whitespace and pushed unless the result is empty. -/
def detail_lines (e : TimelineEvent) : List (Str × Str) :=
  e.detailFields.foldl
    (fun out lv =>
      match lv.2 with
      | some s =>
        let s' := trim (trimQuotes s)
        if s' = [] then out else out ++ [(lv.1, s')]
      | none => out)
    []

/-- The field list `searchable_text` pushes, in source order. -/
def searchFields (e : TimelineEvent) : List (Option Str) :=
  [e.event_time, e.machine_id, e.computer_name, e.action_type, e.file_name,
   e.folder_path, e.sha1, e.sha256, e.md5, e.process_command_line,
   e.account_domain, e.account_name, e.account_sid, e.process_id,
   e.process_creation_time, e.registry_key, e.registry_value_name,
   e.registry_value_data, e.remote_url, e.remote_computer_name, e.remote_ip,
   e.remote_port, e.local_ip, e.local_port, e.file_origin_url,
   e.file_origin_ip, e.initiating_process_sha1, e.initiating_process_sha256,
   e.initiating_process_file_name, e.initiating_process_folder_path,
   e.initiating_process_id, e.initiating_process_command_line,
   e.initiating_process_creation_time, e.initiating_process_parent_file_name,
   e.initiating_process_account_domain, e.initiating_process_account_name,
   e.report_id, e.additional_fields, e.typed_details, e.protocol,
   e.alert_ids, e.categories, e.severities, e.data_type]

/-- `TimelineEvent::searchable_text`: lowercase each present field and append
it followed by a space. -/
def searchable_text (e : TimelineEvent) : Str :=
  e.searchFields.foldl
    (fun out s =>
      match s with
      | some x => out ++ toLowerStr x ++ [ ' ' ]
      | none => out)
    []

/-- `TimelineEvent::matches_search`: empty (or whitespace-only) needle matches
everything; otherwise every whitespace-separated lowercase token must be a
substring of the searchable text. -/
def matches_search (e : TimelineEvent) (needle0 : Str) : Bool :=
  let needle := trim needle0
  if needle = [] then true
  else
    let haystack := e.searchable_text
    let tokens := (splitWhitespace (toLowerStr needle)).filter (fun t => t ≠ [])
    if tokens = [] then true
    else tokens.all (fun t => substr t haystack)

end TimelineEvent

/-- All records of a loaded sequence avoid the `parse_time` panic. -/
def events_no_panic (events : List TimelineEvent) : Bool :=
  events.all (fun e => e.event_time_no_panic)

/-! ## Data-derived candidate lists (`filters.rs`) -/

/-- Insert into a strictly ascending list, keeping it sorted and duplicate
free (the model of `HashSet` collection followed by `sort`). -/
def insertSortedUnique {α : Type} [LinearOrder α] (x : α) : List α → List α
  | [] => [x]
  | y :: ys =>
    if x < y then x :: y :: ys
    else if x = y then y :: ys
    else y :: insertSortedUnique x ys

/-- `filters.rs::unique_dates_from_events`: ascending distinct calendar dates
of the parseable event times. -/
def unique_dates_from_events (events : List TimelineEvent) : List Int :=
  (events.filterMap (fun e => e.event_time_parsed.map dateOf)).foldl
    (fun acc d => insertSortedUnique d acc) []

/-- `filters.rs::unique_hours_for_date`: ascending distinct hours (0–23)
among the event times falling on `date`. -/
def unique_hours_for_date (events : List TimelineEvent) (date : Int) : List Nat :=
  ((events.filterMap (fun e => e.event_time_parsed)).filter
      (fun t => dateOf t = date)).foldl
    (fun acc t => insertSortedUnique (hourOf t) acc) []

/-! ## The TUI session state (`tui/app.rs::App`)

`ratatui::widgets::ListState` is embedded as its selected index
(`Option Nat`); `select` is assignment.  The `path` and `theme` fields play
no role in any operation modelled here and are omitted.  Methods that read
the wall clock (`now_for_relative`) take the reference instant `now` as an
explicit argument. -/

/-- `tui/app.rs::TIME_PRESETS`. -/
def TIME_PRESETS : List Str :=
  ["Today".data, "Yesterday".data, "Last 24 hours".data, "Last 7 days".data,
   "Last 30 days".data, "Custom (pick dates from data)".data,
   "Custom (type range)...".data]

/-- `tui/app.rs::Mode`. -/
inductive Mode where
  | Normal
  | SearchInput
  | ActionTypeFilter
  | TimeFilter
deriving DecidableEq

/-- `tui/app.rs::TimeFilterSub`: the six picker states.  The payloads are a
`NaiveDate` (day count) for `CustomRangeStartHour`, a `NaiveDateTime` (ms)
for `CustomRangeEnd`, and both for `CustomRangeEndHour`. -/
inductive TimeFilterSub where
  | Picker
  | CustomRangeStart
  | CustomRangeStartHour (date : Int)
  | CustomRangeEnd (start_dt : Int)
  | CustomRangeEndHour (start_dt : Int) (end_date : Int)
  | Custom
deriving DecidableEq

/-- `tui/app.rs::App` (see the section header for the omitted fields). -/
structure App where
  events : List TimelineEvent := []
  action_types : List Str := []
  filtered_indices : List Nat := []
  list_state : Option Nat := none
  action_type_filter : Option Str := none
  search : Str := []
  search_input : Str := []
  time_range_start : Option Int := none
  time_range_end : Option Int := none
  time_input : Str := []
  time_filter_sub : TimeFilterSub := .Picker
  time_picker_list_state : Option Nat := none
  unique_dates : List Int := []
  date_picker_end_dates : List Int := []
  date_picker_hours : List Nat := []
  date_picker_list_state : Option Nat := none
  should_quit : Bool := false
  detail_scroll : Nat := 0
  flash : Option Str := none
  error : Option Str := none
  mode : Mode := .Normal
  action_type_list_state : Option Nat := none
deriving DecidableEq

instance : Inhabited App := ⟨{}⟩

namespace App

/-- The `" ({} events)"` tail of the flash messages. -/
def eventsSuffix (n : Nat) : Str := " (".data ++ natStr n ++ " events)".data

/-- The guidance flash of `commit_time_filter`'s fallback. -/
def invalidTimeMsg : Str :=
  "Invalid time. Try: today, last 7 days, after <time>, <time> to <time>, clear".data

/-- `App::apply_filters`: recompute `filtered_indices` (enumerate, keep the
records passing the action-type, time-range and search predicates, keep the
indices), reset the selection to the first result or none, reset the detail
scroll. -/
def apply_filters (a : App) : App :=
  let filtered :=
    ((a.events.enum.filter (fun p =>
        (match a.action_type_filter with
         | some af => decide (p.2.action_type = some af)
         | none => true) &&
        p.2.in_time_range a.time_range_start a.time_range_end &&
        p.2.matches_search (trim a.search))).map Prod.fst)
  { a with filtered_indices := filtered,
           list_state := if filtered.isEmpty then none else some 0,
           detail_scroll := 0 }

/-- `App::start_time_filter`. -/
def start_time_filter (a : App) : App :=
  { a with mode := .TimeFilter, time_filter_sub := .Picker, time_input := ([] : Str),
           time_picker_list_state := if TIME_PRESETS = [] then none else some 0 }

/-- `App::apply_time_picker_selection` (`now` = `now_for_relative()`). -/
def apply_time_picker_selection (now : Int) (a : App) : App :=
  match a.time_picker_list_state with
  | none => a
  | some idx =>
    if idx < TIME_PRESETS.length then
      if idx = TIME_PRESETS.length - 2 then
        -- "Custom (pick dates from data)"
        if a.unique_dates = [] then
          { a with flash := some "No dates in data to pick from.".data }
        else if a.unique_dates.length = 1 then
          let d := a.unique_dates.headD 0
          let hrs := unique_hours_for_date a.events d
          { a with time_filter_sub := .CustomRangeStartHour d,
                   date_picker_hours := hrs,
                   date_picker_list_state := if hrs = [] then none else some 0 }
        else
          { a with time_filter_sub := .CustomRangeStart,
                   date_picker_list_state := some (Nat.min 0 (a.unique_dates.length - 1)) }
      else if idx = TIME_PRESETS.length - 1 then
        -- "Custom (type range)..."
        let pre :=
          (match a.time_range_start with | some s => fmtYmdHm s | none => []) ++
          (if a.time_range_end.isSome then " to ".data else []) ++
          (match a.time_range_end with | some en => fmtYmdHm en | none => [])
        { a with time_filter_sub := .Custom, time_input := a.time_input ++ pre }
      else
        let label := toLowerStr (TIME_PRESETS.getD idx [])
        match parse_relative_range label now with
        | some (sB, eB) =>
          let a := apply_filters { a with time_range_start := sB, time_range_end := eB }
          let flash :=
            match sB, eB with
            | some x, some y =>
              fmtYmdHm x ++ " to ".data ++ fmtYmdHm y ++ eventsSuffix a.filtered_indices.length
            | some x, none => "From ".data ++ fmtYmdHm x ++ eventsSuffix a.filtered_indices.length
            | none, some y => "Before ".data ++ fmtYmdHm y ++ eventsSuffix a.filtered_indices.length
            | none, none => natStr a.filtered_indices.length ++ " events".data
          { a with mode := .Normal, time_filter_sub := .Picker, flash := some flash }
        | none => a
    else a

/-- `App::apply_date_range_start`: fix the start date, move to state 3. -/
def apply_date_range_start (a : App) : App :=
  match a.date_picker_list_state with
  | some idx =>
    if idx < a.unique_dates.length then
      let start_date := a.unique_dates.getD idx 0
      let hrs := unique_hours_for_date a.events start_date
      { a with time_filter_sub := .CustomRangeStartHour start_date,
               date_picker_hours := hrs,
               date_picker_list_state := if hrs = [] then none else some 0 }
    else a
  | none => a

/-- `App::apply_date_range_start_hour`: fix the start instant, move to state
4, or directly to state 5 in the single-date case. -/
def apply_date_range_start_hour (a : App) : App :=
  match a.time_filter_sub with
  | .CustomRangeStartHour date =>
    (match a.date_picker_list_state with
     | some idx =>
       if idx < a.date_picker_hours.length then
         let hour := a.date_picker_hours.getD idx 0
         let start_dt := andHms date hour 0 0
         if a.unique_dates.length = 1 && a.unique_dates.head? = some date then
           let hrs := a.date_picker_hours.filter (fun h => hour ≤ h)
           { a with date_picker_hours := hrs,
                    time_filter_sub := .CustomRangeEndHour start_dt date,
                    date_picker_list_state := if hrs = [] then none else some 0 }
         else
           let eds := a.unique_dates.filter (fun d => date ≤ d)
           { a with date_picker_end_dates := eds,
                    time_filter_sub := .CustomRangeEnd start_dt,
                    date_picker_list_state := if eds = [] then none else some 0 }
       else a
     | none => a)
  | _ => a

/-- `App::apply_date_range_end`: fix the end date, move to state 5. -/
def apply_date_range_end (a : App) : App :=
  match a.time_filter_sub with
  | .CustomRangeEnd start_dt =>
    (match a.date_picker_list_state with
     | some idx =>
       if idx < a.date_picker_end_dates.length then
         let end_date := a.date_picker_end_dates.getD idx 0
         let hrs :=
           if end_date = dateOf start_dt then
             (unique_hours_for_date a.events end_date).filter (fun h => hourOf start_dt ≤ h)
           else unique_hours_for_date a.events end_date
         { a with date_picker_hours := hrs,
                  time_filter_sub := .CustomRangeEndHour start_dt end_date,
                  date_picker_list_state := if hrs = [] then none else some 0 }
       else a
     | none => a)
  | _ => a

/-- `App::apply_date_range_end_hour`: fix `end = end_date@end_hour:59:59`,
apply the filters and reset the machine. -/
def apply_date_range_end_hour (a : App) : App :=
  match a.time_filter_sub with
  | .CustomRangeEndHour start_dt end_date =>
    (match a.date_picker_list_state with
     | some idx =>
       if idx < a.date_picker_hours.length then
         let end_hour := a.date_picker_hours.getD idx 0
         let endB := andHms end_date end_hour 59 59
         let a := apply_filters { a with time_range_start := some start_dt,
                                         time_range_end := some endB }
         { a with mode := .Normal, time_filter_sub := .Picker,
                  flash := some (fmtYmdHm start_dt ++ " to ".data ++ fmtYmdHm endB ++
                    eventsSuffix a.filtered_indices.length) }
       else a
     | none => a)
  | _ => a

/-- `App::cancel_time_filter`: backward navigation of the picker machine,
recomputing the predecessor's candidate list from current data. -/
def cancel_time_filter (a : App) : App :=
  match a.time_filter_sub with
  | .Custom =>
    { a with time_filter_sub := .Picker, time_input := ([] : Str),
             time_picker_list_state := if TIME_PRESETS = [] then none else some 0 }
  | .CustomRangeEndHour start_dt _ =>
    let eds := a.unique_dates.filter (fun d => dateOf start_dt ≤ d)
    { a with date_picker_end_dates := eds,
             time_filter_sub := .CustomRangeEnd start_dt,
             date_picker_list_state := if eds = [] then none else some 0 }
  | .CustomRangeEnd start_dt =>
    let start_date := dateOf start_dt
    let hrs := unique_hours_for_date a.events start_date
    let pos := (hrs.findIdx? (fun h => h = hourOf start_dt)).getD 0
    { a with time_filter_sub := .CustomRangeStartHour start_date,
             date_picker_hours := hrs,
             date_picker_list_state := if hrs = [] then none else some pos }
  | .CustomRangeStartHour _ =>
    { a with time_filter_sub := .CustomRangeStart,
             date_picker_hours := ([] : List Nat),
             date_picker_list_state := some (Nat.min 0 (a.unique_dates.length - 1)) }
  | .CustomRangeStart =>
    { a with time_filter_sub := .Picker,
             time_picker_list_state := if TIME_PRESETS = [] then none else some 0 }
  | .Picker =>
    { a with time_input := ([] : Str), mode := .Normal }

/-- The `after <t>` / `from <t>` alternative of `commit_time_filter`. -/
def tryAfterFromAlt (a1 : App) (s_lower : Str) : Option App :=
  match (stripPrefixStr "after ".data s_lower).orElse
      (fun _ => stripPrefixStr "from ".data s_lower) with
  | some rest =>
    (match parse_time rest with
     | some t =>
       let a := apply_filters { a1 with time_range_start := some t, time_range_end := none }
       some { a with mode := .Normal,
                     flash := some ("Events after ".data ++ fmtYmdHm t ++
                       eventsSuffix a.filtered_indices.length) }
     | none => none)
  | none => none

/-- The `<t> to <t>` alternative of `commit_time_filter`. -/
def tryToAlt (a1 : App) (s_lower : Str) : Option App :=
  match splitOnceStr " to ".data s_lower with
  | some p =>
    (match parse_time p.1, parse_time (trim p.2) with
     | some t1, some t2 =>
       let a := apply_filters { a1 with time_range_start := some t1, time_range_end := some t2 }
       some { a with mode := .Normal,
                     flash := some (fmtYmdHm t1 ++ " to ".data ++ fmtYmdHm t2 ++
                       eventsSuffix a.filtered_indices.length) }
     | _, _ => none)
  | none => none

/-- The `before <t>` alternative of `commit_time_filter`. -/
def tryBeforeAlt (a1 : App) (s_lower : Str) : Option App :=
  match stripPrefixStr "before ".data s_lower with
  | some rest =>
    (match parse_time rest with
     | some t =>
       let a := apply_filters { a1 with time_range_start := none, time_range_end := some t }
       some { a with mode := .Normal,
                     flash := some ("Events before ".data ++ fmtYmdHm t ++
                       eventsSuffix a.filtered_indices.length) }
     | none => none)
  | none => none

/-- The `<t>..<t>` alternative of `commit_time_filter` (on the case-preserved
trimmed buffer). -/
def tryDotDotAlt (a1 : App) (raw : Str) : Option App :=
  match splitOnceStr "..".data (trim raw) with
  | some p =>
    (match parse_time p.1, parse_time (trim p.2) with
     | some t1, some t2 =>
       let a := apply_filters { a1 with time_range_start := some t1, time_range_end := some t2 }
       some { a with mode := .Normal,
                     flash := some (fmtYmdHm t1 ++ " to ".data ++ fmtYmdHm t2 ++
                       eventsSuffix a.filtered_indices.length) }
     | _, _ => none)
  | none => none

/-- The bare `<t>` alternative of `commit_time_filter`. -/
def tryBareAlt (a1 : App) (raw : Str) : Option App :=
  match parse_time (trim raw) with
  | some t =>
    let a := apply_filters { a1 with time_range_start := some t, time_range_end := none }
    some { a with mode := .Normal,
                  flash := some ("Events from ".data ++ fmtYmdHm t ++
                    eventsSuffix a.filtered_indices.length) }
  | none => none

/-- `App::commit_time_filter` (`now` = `now_for_relative()`): resolve the
typed buffer through the grammar cascade; on failure restore the buffer and
flash guidance.  The source's sequence of early-returning `if let` blocks is
embedded as ordered alternatives (`Option App`, first success wins), the same
control flow. -/
def commit_time_filter (now : Int) (a0 : App) : App :=
  let raw := a0.time_input
  let a1 := { a0 with time_input := ([] : Str) }
  let s := trim raw
  let s_lower := toLowerStr s
  if s_lower = "clear".data || s = [] then
    let a := apply_filters { a1 with time_range_start := none, time_range_end := none }
    { a with mode := .Normal, flash := some "Time range cleared".data }
  else
    match parse_relative_range s_lower now with
    | some (sB, eB) =>
      let a := apply_filters { a1 with time_range_start := sB, time_range_end := eB }
      let flash :=
        match sB, eB with
        | some x, some y =>
          fmtYmdHm x ++ " to ".data ++ fmtYmdHm y ++ eventsSuffix a.filtered_indices.length
        | _, _ => natStr a.filtered_indices.length ++ " events".data
      { a with mode := .Normal, time_filter_sub := .Picker, flash := some flash }
    | none =>
      (((((tryAfterFromAlt a1 s_lower).orElse (fun _ => tryToAlt a1 s_lower)).orElse
        (fun _ => tryBeforeAlt a1 s_lower)).orElse (fun _ => tryDotDotAlt a1 raw)).orElse
        (fun _ => tryBareAlt a1 raw)).getD
        { a1 with time_input := raw, flash := some invalidTimeMsg }

end App

/-! ## Shared lemmas -/

/-- The empty string is a substring of everything. -/
lemma substr_nil (h : Str) : substr [] h = true := by
  cases h with
  | nil => rfl
  | cons c cs => simp [substr, List.tails]

/-- Characterisation of `matches_search`: the conjunction over the
whitespace-separated lowercase tokens of the trimmed needle. -/
lemma matches_search_iff (e : TimelineEvent) (s : Str) :
    e.matches_search s = true ↔
      ∀ t ∈ splitWhitespace (toLowerStr (trim s)), substr t e.searchable_text = true := by
  unfold TimelineEvent.matches_search
  by_cases h : trim s = []
  · simp [h, toLowerStr, splitWhitespace, splitWsAux]
  · simp only [h, if_false, if_neg h]
    by_cases h2 : (splitWhitespace (toLowerStr (trim s))).filter (fun t => t ≠ []) = []
    · simp only [h2, if_pos rfl]
      constructor
      · intro _ t ht
        have ht0 : t = [] := by
          by_contra hne
          have hmem : t ∈ (splitWhitespace (toLowerStr (trim s))).filter (fun t => t ≠ []) :=
            List.mem_filter.mpr ⟨ht, by simp [hne]⟩
          rw [h2] at hmem
          exact absurd hmem (List.not_mem_nil t)
        subst ht0
        exact substr_nil _
      · intro _; rfl
    · simp only [if_neg h2, List.all_eq_true]
      constructor
      · intro hall t ht
        by_cases ht0 : t = []
        · subst ht0; exact substr_nil _
        · exact hall t (by simp [List.mem_filter, ht, ht0])
      · intro hall t ht
        exact hall t (List.mem_filter.mp ht).1

/-- `insertSortedUnique` only adds the inserted element. -/
lemma mem_insertSortedUnique {α : Type} [LinearOrder α] {x y : α} :
    ∀ {l : List α}, y ∈ insertSortedUnique x l → y = x ∨ y ∈ l := by
  intro l
  induction l with
  | nil => intro h; simp [insertSortedUnique] at h; exact Or.inl h
  | cons z zs ih =>
    intro h
    unfold insertSortedUnique at h
    by_cases h1 : x < z
    · simp only [if_pos h1] at h
      rcases List.mem_cons.mp h with h' | h'
      · exact Or.inl h'
      · exact Or.inr h'
    · simp only [if_neg h1] at h
      by_cases h2 : x = z
      · simp only [if_pos h2] at h; exact Or.inr h
      · simp only [if_neg h2] at h
        rcases List.mem_cons.mp h with h' | h'
        · exact Or.inr (by simp [h'])
        · rcases ih h' with h'' | h''
          · exact Or.inl h''
          · exact Or.inr (List.mem_cons_of_mem _ h'')

/-- `insertSortedUnique` preserves strict ascending order. -/
lemma insertSortedUnique_pairwise {α : Type} [LinearOrder α] (x : α) :
    ∀ {l : List α}, l.Pairwise (· < ·) → (insertSortedUnique x l).Pairwise (· < ·) := by
  intro l
  induction l with
  | nil => intro _; simp [insertSortedUnique]
  | cons z zs ih =>
    intro h
    rcases List.pairwise_cons.mp h with ⟨hz, hzs⟩
    unfold insertSortedUnique
    by_cases h1 : x < z
    · simp only [if_pos h1]
      exact List.pairwise_cons.mpr ⟨by
        intro b hb
        rcases List.mem_cons.mp hb with h' | h'
        · subst h'; exact h1
        · exact lt_trans h1 (hz b h'), h⟩
    · simp only [if_neg h1]
      by_cases h2 : x = z
      · simp only [if_pos h2]; exact h
      · simp only [if_neg h2]
        have hzx : z < x := lt_of_le_of_ne (not_lt.mp h1) (fun he => h2 he.symm)
        exact List.pairwise_cons.mpr ⟨by
          intro b hb
          rcases mem_insertSortedUnique hb with h' | h'
          · subst h'; exact hzx
          · exact hz b h', ih hzs⟩

/-- Folding `insertSortedUnique` over any list preserves strict order. -/
lemma foldl_insertSortedUnique_pairwise {α β : Type} [LinearOrder α] (f : β → α) :
    ∀ (l : List β) (acc : List α), acc.Pairwise (· < ·) →
      (l.foldl (fun acc t => insertSortedUnique (f t) acc) acc).Pairwise (· < ·) := by
  intro l
  induction l with
  | nil => intro acc h; exact h
  | cons b bs ih => intro acc h; exact ih _ (insertSortedUnique_pairwise _ h)

/-- The distinct date list is strictly ascending. -/
lemma unique_dates_pairwise (events : List TimelineEvent) :
    (unique_dates_from_events events).Pairwise (· < ·) := by
  unfold unique_dates_from_events
  exact foldl_insertSortedUnique_pairwise _ _ [] (by simp)

/-- Hours of a datetime are below 24. -/
lemma hourOf_lt (t : Int) : hourOf t < 24 := by
  unfold hourOf msPerDay
  omega

/-- Every member of a folded hour list is below 24. -/
lemma foldl_hours_lt (l : List Int) :
    ∀ (acc : List Nat), (∀ h ∈ acc, h < 24) →
      ∀ h ∈ l.foldl (fun acc t => insertSortedUnique (hourOf t) acc) acc, h < 24 := by
  induction l with
  | nil => intro acc hacc h hh; exact hacc h hh
  | cons t ts ih =>
    intro acc hacc h hh
    refine ih _ ?_ h hh
    intro h' hh'
    rcases mem_insertSortedUnique hh' with h'' | h''
    · subst h''; exact hourOf_lt t
    · exact hacc h' h''

/-- Hour candidates are genuine hours (below 24). -/
lemma unique_hours_lt (events : List TimelineEvent) (d : Int) :
    ∀ h ∈ unique_hours_for_date events d, h < 24 := by
  unfold unique_hours_for_date
  exact foldl_hours_lt _ [] (by simp)

/-- A day-count plus an in-range hour lands on that day. -/
lemma dateOf_andHms (d : Int) (h : Nat) (hh : h < 24) : dateOf (andHms d h 0 0) = d := by
  unfold dateOf andHms msPerDay
  omega

/-- The hour of a day-count plus an in-range hour. -/
lemma hourOf_andHms (d : Int) (h : Nat) (hh : h < 24) : hourOf (andHms d h 0 0) = h := by
  unfold hourOf andHms msPerDay
  omega

/-- Pushing `some`-results of a partial map in a left fold is `filterMap`. -/
lemma foldl_pushOpt_eq_filterMap {α β : Type} (f : α → Option β) :
    ∀ (l : List α) (acc : List β),
      l.foldl (fun out x => out ++ (f x).toList) acc = acc ++ l.filterMap f := by
  intro l
  induction l with
  | nil => intro acc; simp
  | cons x xs ih =>
    intro acc
    simp only [List.foldl_cons, List.filterMap_cons]
    cases hf : f x with
    | none => simp [ih]
    | some y => simp [ih, hf]

/-- `findIdx?` on a list containing `x` finds an index holding `x`. -/
lemma findIdx?_mem_eq {x : Nat} :
    ∀ (l : List Nat), x ∈ l →
      ∃ i, l.findIdx? (fun h => h = x) = some i ∧ l.getD i 0 = x := by
  intro l
  induction l with
  | nil => intro h; simp at h
  | cons y ys ih =>
    intro h
    by_cases hy : y = x
    · exact ⟨0, by simp [List.findIdx?_cons, hy], by simp [hy]⟩
    · have hmem : x ∈ ys := by
        rcases List.mem_cons.mp h with h' | h'
        · exact absurd h'.symm hy
        · exact h'
      obtain ⟨i, hfind, hget⟩ := ih hmem
      refine ⟨i + 1, ?_, by simpa using hget⟩
      rw [List.findIdx?_cons]
      simp only [hy, decide_eq_true_eq, if_false, if_neg hy]
      rw [List.findIdx?_succ, hfind]
      rfl

/-- Unrecognised strings are not relative expressions. -/
lemma parse_relative_range_none (s : Str) (now : Int)
    (h : toLowerStr (trim s) ∉ relative_vocab) : parse_relative_range s now = none := by
  unfold parse_relative_range
  simp only [relative_vocab, List.mem_cons, List.not_mem_nil, or_false] at h
  push_neg at h
  obtain ⟨h1, h2, h3, h4, h5, h6, h7, h8, h9, h10, h11, h12, h13, h14, h15, h16, h17⟩ := h
  by_cases h0 : toLowerStr (trim s) = []
  · simp [h0]
  · simp [h0, h1, h2, h3, h4, h5, h6, h7, h8, h9, h10, h11, h12, h13, h14, h15, h16, h17]

/-! ## Concrete sample data for witnesses -/

/-- A record with a parseable morning timestamp and category `ProcessCreated`. -/
def sampleProc : TimelineEvent :=
  { event_time := some "2024-01-01 05:30:00".data, action_type := some "ProcessCreated".data }

/-- A record on the following day with category `ConnectionSuccess`. -/
def sampleConn : TimelineEvent :=
  { event_time := some "2024-01-02 06:00:00".data, action_type := some "ConnectionSuccess".data }

/-! ## Claim theorems -/

/-- **C1.** For every record and search string, `matches_search` is true iff
every lowercase whitespace-separated token of the trimmed needle occurs as a
substring of the record's lowercase searchable text; an empty or
whitespace-only needle matches every record; and the result is unchanged
under any reordering (permutation) of the needle's tokens. -/
theorem matches_search_correct (e : TimelineEvent) (s : Str) :
    (e.matches_search s = true ↔
      ∀ t ∈ splitWhitespace (toLowerStr (trim s)), substr t e.searchable_text = true) ∧
    (trim s = [] → e.matches_search s = true) ∧
    (∀ s' : Str,
      (splitWhitespace (toLowerStr (trim s'))).Perm (splitWhitespace (toLowerStr (trim s))) →
      e.matches_search s' = e.matches_search s) := by
  refine ⟨matches_search_iff e s, ?_, ?_⟩
  · intro h
    rw [matches_search_iff]
    intro t ht
    rw [h] at ht
    simp [toLowerStr, splitWhitespace, splitWsAux] at ht
  · intro s' hperm
    have h1 := matches_search_iff e s'
    have h2 := matches_search_iff e s
    have hmem : (∀ t ∈ splitWhitespace (toLowerStr (trim s')), substr t e.searchable_text = true) ↔
        (∀ t ∈ splitWhitespace (toLowerStr (trim s)), substr t e.searchable_text = true) := by
      constructor
      · intro hh t ht; exact hh t (hperm.mem_iff.mpr ht)
      · intro hh t ht; exact hh t (hperm.mem_iff.mp ht)
    cases hb1 : e.matches_search s' <;> cases hb2 : e.matches_search s
    · rfl
    · have := h1.mpr (hmem.mpr (h2.mp hb2))
      rw [hb1] at this
      exact absurd this (by simp)
    · have := h2.mpr (hmem.mp (h1.mp hb1))
      rw [hb2] at this
      exact absurd this (by simp)
    · rfl

/-- Witness for C1: a whitespace-only needle matches a concrete record. -/
theorem matches_search_correct_witness :
    sampleProc.matches_search "   ".data = true :=
  (matches_search_correct sampleProc "   ".data).2.1 (by decide)

/-- **C2.** `in_time_range` is true iff the record's parsed event time
satisfies every bound that is set (inclusively on both sides); a record whose
event time does not parse passes exactly when both bounds are absent.  The
hypothesis records that the event time avoids `parse_time`'s panic path, so
the total model coincides with the Rust code. -/
theorem in_time_range_correct (e : TimelineEvent) (sB eB : Option Int)
    (hnp : e.event_time_no_panic = true) :
    (e.in_time_range sB eB = true ↔
      match e.event_time_parsed with
      | some t => (∀ x ∈ sB, x ≤ t) ∧ (∀ y ∈ eB, t ≤ y)
      | none => sB = none ∧ eB = none) := by
  unfold TimelineEvent.in_time_range
  cases h : e.event_time_parsed with
  | none => cases sB <;> cases eB <;> simp
  | some t => cases sB <;> cases eB <;> simp

/-- Witness for C2: a record with no event time and no bounds passes. -/
theorem in_time_range_correct_witness :
    (default : TimelineEvent).in_time_range none none = true :=
  (in_time_range_correct default none none (by decide)).mpr ⟨rfl, rfl⟩

/-- **C7.** The relative parser maps `today`/`yesterday` to that calendar
day's `[00:00:00, 23:59:59]`, maps the hour-granularity forms to
`[now − N hours, now]` without truncation, maps the day-granularity forms to
`[start-of-day(now − N days), now]`, and returns no match on anything outside
the vocabulary; concretely, `last 7 days` at `2024-03-10 09:00:00` yields
`[2024-03-03 00:00:00, 2024-03-10 09:00:00]`. -/
theorem parse_relative_range_correct (s : Str) (now : Int) :
    (toLowerStr (trim s) = "today".data →
      parse_relative_range s now =
        some (some (andHms (dateOf now) 0 0 0), some (andHms (dateOf now) 23 59 59))) ∧
    (toLowerStr (trim s) = "yesterday".data →
      parse_relative_range s now =
        some (some (andHms (dateOf now - 1) 0 0 0), some (andHms (dateOf now - 1) 23 59 59))) ∧
    (toLowerStr (trim s) ∈ ["last 24 hours".data, "last 24h".data, "24h".data] →
      parse_relative_range s now = some (some (now - 24 * 3600000), some now)) ∧
    (toLowerStr (trim s) ∈ ["last 1 hour".data, "last 1h".data, "1h".data] →
      parse_relative_range s now = some (some (now - 1 * 3600000), some now)) ∧
    (toLowerStr (trim s) ∈ ["last 12 hours".data, "last 12h".data, "12h".data] →
      parse_relative_range s now = some (some (now - 12 * 3600000), some now)) ∧
    (toLowerStr (trim s) ∈ ["last 7 days".data, "last 7d".data, "7d".data] →
      parse_relative_range s now =
        some (some (andHms (dateOf (now - 7 * msPerDay)) 0 0 0), some now)) ∧
    (toLowerStr (trim s) ∈ ["last 30 days".data, "last 30d".data, "30d".data] →
      parse_relative_range s now =
        some (some (andHms (dateOf (now - 30 * msPerDay)) 0 0 0), some now)) ∧
    (toLowerStr (trim s) ∉ relative_vocab → parse_relative_range s now = none) ∧
    parse_relative_range "last 7 days".data (mkDT 2024 3 10 9 0 0) =
      some (some (mkDT 2024 3 3 0 0 0), some (mkDT 2024 3 10 9 0 0)) := by
  refine ⟨?_, ?_, ?_, ?_, ?_, ?_, ?_, parse_relative_range_none s now, by decide⟩
  all_goals
    first
    | (intro h; simp only [parse_relative_range]; rw [h]; rfl)
    | (intro h
       rcases List.mem_cons.mp h with h | h
       · simp only [parse_relative_range]; rw [h]; rfl
       · rcases List.mem_cons.mp h with h | h
         · simp only [parse_relative_range]; rw [h]; rfl
         · rcases List.mem_cons.mp h with h | h
           · simp only [parse_relative_range]; rw [h]; rfl
           · exact absurd h (List.not_mem_nil _))

/-- Witness for C7: `today` (with stray case and spaces) at a concrete
reference instant. -/
theorem parse_relative_range_correct_witness :
    parse_relative_range " TODAY ".data (mkDT 2024 3 10 9 0 0) =
      some (some (mkDT 2024 3 10 0 0 0), some (mkDT 2024 3 10 23 59 59)) := by
  have h := (parse_relative_range_correct " TODAY ".data (mkDT 2024 3 10 9 0 0)).1 (by decide)
  rw [h]; decide

/-- **C8.** Every run of the filter pipeline resets the selection to the
first element of the new result (or to none when it is empty) and resets the
detail scroll to zero, so the selection never points outside the new result
set. -/
theorem apply_filters_resets_selection (a : App) (hnp : events_no_panic a.events = true) :
    ((App.apply_filters a).detail_scroll = 0) ∧
    ((App.apply_filters a).filtered_indices = [] → (App.apply_filters a).list_state = none) ∧
    ((App.apply_filters a).filtered_indices ≠ [] → (App.apply_filters a).list_state = some 0) ∧
    (∀ i, (App.apply_filters a).list_state = some i →
      i < (App.apply_filters a).filtered_indices.length) := by
  unfold App.apply_filters
  refine ⟨rfl, ?_, ?_, ?_⟩
  · intro h
    simp only at h ⊢
    simp [h]
  · intro h
    simp only at h ⊢
    simp [h]
  · intro i hi
    simp only at hi ⊢
    split at hi
    · exact absurd hi (by simp)
    · next hne =>
      have hi0 : i = 0 := (Option.some.inj hi).symm
      subst hi0
      have : ¬ (List.isEmpty _ = true) := hne
      rw [List.isEmpty_iff] at this
      exact List.length_pos.mpr this

/-- Witness for C8 at a concrete two-record app. -/
theorem apply_filters_resets_selection_witness :
    (App.apply_filters { events := [sampleProc, sampleConn] }).list_state = some 0 :=
  (apply_filters_resets_selection { events := [sampleProc, sampleConn] } (by decide)).2.2.1
    (by decide)

/-- A record with category `X` for the C3 counterexample. -/
def cexEventX : TimelineEvent := { action_type := some "X".data }

/-- The three-record `ProcessCreated` scenario of C3. -/
def procScenarioApp : App :=
  { events := [sampleProc, sampleConn, sampleProc], action_type_filter := some "ProcessCreated".data }

/-- A one-record `ProcessCreated` app for the C3 witness. -/
def procSingleApp : App :=
  { events := [sampleProc], action_type_filter := some "ProcessCreated".data }

/-- The C3 counterexample app: category filter set to one space (non-empty,
but empty after trimming). -/
def cexPaddedApp : App := { events := [cexEventX], action_type_filter := some " ".data }

/-- Modelled from the claim's words (C3), not from the source: the category
predicate applies only when the filter is non-empty after trimming, and
compares against the trimmed filter value. -/
def claimed_filter_pipeline (events : List TimelineEvent) (cat : Option Str)
    (sB eB : Option Int) (search : Str) : List Nat :=
  (List.range events.length).filter (fun i =>
    let ev := events.getD i default
    (match cat with
     | some f => if trim f = [] then true else decide (ev.action_type = some (trim f))
     | none => true) &&
    ev.in_time_range sB eB &&
    ev.matches_search search)

/-- **C3 (counterexample).** With the category filter set to a single space,
the claim's reading (trim the filter, ignore it if empty) keeps the record,
but `App::apply_filters` compares the filter string exactly as stored and
rejects every record, returning no indices. -/
theorem filter_pipeline_counterexample :
    claimed_filter_pipeline cexPaddedApp.events cexPaddedApp.action_type_filter
        cexPaddedApp.time_range_start cexPaddedApp.time_range_end cexPaddedApp.search = [0] ∧
    (App.apply_filters cexPaddedApp).filtered_indices = [] := by decide

/-- **C3 (amended).** The pipeline returns exactly the indices, in original
load order, of the records that pass all three predicates conjointly, where
the category predicate (when the filter is set) compares the record's
category field with the filter string exactly as stored — without trimming
and without exempting an empty filter; the time-range and search predicates
are as claimed.  Three records with categories `ProcessCreated`,
`ConnectionSuccess`, `ProcessCreated` filtered by `ProcessCreated` yield
exactly the matches `[0, 2]`. -/
theorem filter_pipeline_amended :
    (∀ a : App, events_no_panic a.events = true →
      ((∀ i : Nat, i ∈ (App.apply_filters a).filtered_indices ↔
          (i < a.events.length ∧
            ((match a.action_type_filter with
              | some f => (a.events.getD i default).action_type = some f
              | none => True) ∧
             (a.events.getD i default).in_time_range a.time_range_start a.time_range_end
               = true ∧
             (a.events.getD i default).matches_search (trim a.search) = true))) ∧
        (App.apply_filters a).filtered_indices.Pairwise (· < ·))) ∧
    (App.apply_filters procScenarioApp).filtered_indices = [0, 2] := by
  constructor
  · intro a _hnp
    constructor
    · intro i
      show i ∈ ((a.events.enum.filter _).map Prod.fst) ↔ _
      rw [List.mem_map]
      constructor
      · rintro ⟨p, hp, hfst⟩
        obtain ⟨j, ev⟩ := p
        obtain ⟨hmem, hpred⟩ := List.mem_filter.mp hp
        cases hfst
        have hget : a.events[j]? = some ev := List.mk_mem_enum_iff_getElem?.mp hmem
        obtain ⟨hlt, hval⟩ := List.getElem?_eq_some.mp hget
        have hgetD : a.events.getD j default = ev := by
          rw [List.getD_eq_getElem?_getD, hget]; rfl
        refine ⟨hlt, ?_, ?_, ?_⟩
        · rw [hgetD]
          simp only [Bool.and_eq_true] at hpred
          have hcat := hpred.1.1
          cases haf : a.action_type_filter with
          | none => trivial
          | some f =>
            rw [haf] at hcat
            simpa using hcat
        · rw [hgetD]
          simp only [Bool.and_eq_true] at hpred
          exact hpred.1.2
        · rw [hgetD]
          simp only [Bool.and_eq_true] at hpred
          exact hpred.2
      · rintro ⟨hlt, hcat, htime, hsearch⟩
        refine ⟨(i, a.events.getD i default), List.mem_filter.mpr ⟨?_, ?_⟩, rfl⟩
        · refine List.mk_mem_enum_iff_getElem?.mpr ?_
          rw [List.getElem?_eq_getElem hlt]
          rw [List.getD_eq_getElem?_getD, List.getElem?_eq_getElem hlt]
          rfl
        · simp only [Bool.and_eq_true]
          refine ⟨⟨?_, htime⟩, hsearch⟩
          cases haf : a.action_type_filter with
          | none => rfl
          | some f =>
            rw [haf] at hcat
            simpa using hcat
    · show ((a.events.enum.filter _).map Prod.fst).Pairwise (· < ·)
      refine List.pairwise_map.mpr ?_
      refine List.Pairwise.filter _ ?_
      refine List.pairwise_map.mp ?_
      rw [List.enum_map_fst]
      exact List.pairwise_lt_range _
  · decide

/-- Witness for C3's amended theorem at a concrete one-record app. -/
theorem filter_pipeline_amended_witness :
    0 ∈ (App.apply_filters procSingleApp).filtered_indices := by
  have h := (filter_pipeline_amended.1 procSingleApp (by decide)).1 0
  refine h.mpr ⟨by decide, ?_, by decide, by decide⟩
  show (procSingleApp.events.getD 0 default).action_type = some "ProcessCreated".data
  decide

/-- **C5.** Selecting "Custom (pick dates from data)" in state 1 (Picker):
with no parseable dates a non-fatal notice is flashed and the machine stays
in state 1 with nothing else changed; with exactly one distinct date the
machine skips state 2 and lands in state 3 for that date with that date's
hour candidates; otherwise it moves to state 2 over the ascending
deduplicated date list. -/
theorem picker_custom_dates_entry (a : App) (now : Int)
    (hud : a.unique_dates = unique_dates_from_events a.events)
    (hsel : a.time_picker_list_state = some (TIME_PRESETS.length - 2)) :
    (a.unique_dates = [] →
      App.apply_time_picker_selection now a =
        { a with flash := some "No dates in data to pick from.".data }) ∧
    (∀ d, a.unique_dates = [d] →
      (App.apply_time_picker_selection now a).time_filter_sub = .CustomRangeStartHour d ∧
      (App.apply_time_picker_selection now a).date_picker_hours =
        unique_hours_for_date a.events d ∧
      (App.apply_time_picker_selection now a).mode = a.mode) ∧
    (2 ≤ a.unique_dates.length →
      (App.apply_time_picker_selection now a).time_filter_sub = .CustomRangeStart ∧
      (App.apply_time_picker_selection now a).date_picker_list_state = some 0 ∧
      a.unique_dates.Pairwise (· < ·)) := by
  unfold App.apply_time_picker_selection
  rw [hsel]
  refine ⟨?_, ?_, ?_⟩
  · intro h
    simp [h, TIME_PRESETS]
  · intro d h
    simp [h, TIME_PRESETS]
  · intro h
    have h0 : ¬ a.unique_dates = [] := by
      intro he; rw [he] at h; simp at h
    have h1 : ¬ a.unique_dates.length = 1 := by omega
    simp [h0, h1, TIME_PRESETS]
    exact hud ▸ unique_dates_pairwise a.events

/-- Witness for C5 at a concrete one-date data set. -/
theorem picker_custom_dates_entry_witness :
    (App.apply_time_picker_selection 0
        { events := [sampleProc], unique_dates := unique_dates_from_events [sampleProc], time_picker_list_state := some 5 }).time_filter_sub =
      .CustomRangeStartHour (daysFromCivil 2024 1 1) := by
  have h := (picker_custom_dates_entry
    { events := [sampleProc], unique_dates := unique_dates_from_events [sampleProc], time_picker_list_state := some 5 }
    0 (by decide) (by decide)).2.1 (daysFromCivil 2024 1 1) (by decide)
  exact h.1

/-- Record for the C9 counterexample: whitespace-only own file name, a
non-empty initiating-process file name, and a host identifier. -/
def wsFileEvent : TimelineEvent :=
  { file_name := some " ".data, initiating_process_file_name := some "x".data, computer_name := some "c".data }

/-- **C9 (counterexample).** `wsFileEvent`'s file name consists only of
whitespace/quote characters, yet `list_line` renders it instead of treating
it as absent: the output differs from the output with the field absent (which
would fall back to the initiating-process file name `x`). -/
theorem display_empty_counterexample :
    (" ".data : Str).all (fun c => c.isWhitespace || c == '\x22') = true ∧
    wsFileEvent.file_name = some " ".data ∧
    TimelineEvent.list_line wsFileEvent ≠
      TimelineEvent.list_line { wsFileEvent with file_name := none } := by decide

/-- **C9 (amended).** A present detail value is omitted iff it is empty after
stripping surrounding quotes and then surrounding whitespace (and is shown
thus stripped); in the short display line the fallback chain takes the first
present value among the record's own file name and the initiating-process
file name, strips only surrounding quotes (not whitespace), and falls back to
the host identifier exactly when that stripped value is empty — so a
whitespace-only file name is displayed rather than skipped. -/
theorem display_empty_amended (e : TimelineEvent) :
    (e.detail_lines = e.detailFields.filterMap (fun lv =>
      lv.2.bind (fun v =>
        let s := trim (trimQuotes v)
        if s = [] then none else some (lv.1, s)))) ∧
    (∀ v, e.file_name = some v → trimQuotes v ≠ [] →
      e.list_line = trimQuotes (e.event_time.getD []) ++ " | ".data ++
        e.action_type.getD TimelineEvent.actionFallback ++ " | ".data ++ trimQuotes v) ∧
    (∀ w, e.file_name = none → e.initiating_process_file_name = some w →
      trimQuotes w ≠ [] →
      e.list_line = trimQuotes (e.event_time.getD []) ++ " | ".data ++
        e.action_type.getD TimelineEvent.actionFallback ++ " | ".data ++ trimQuotes w) ∧
    (trimQuotes ((e.file_name.or e.initiating_process_file_name).getD []) = [] →
      e.list_line = trimQuotes (e.event_time.getD []) ++ " | ".data ++
        e.action_type.getD TimelineEvent.actionFallback ++ " | ".data ++
        trimQuotes (e.computer_name.getD [])) := by
  refine ⟨?_, ?_, ?_, ?_⟩
  · unfold TimelineEvent.detail_lines
    have hcal :
        e.detailFields.foldl
          (fun out lv =>
            match lv.2 with
            | some s =>
              let s' := trim (trimQuotes s)
              if s' = [] then out else out ++ [(lv.1, s')]
            | none => out)
          [] =
        e.detailFields.foldl
          (fun out lv =>
            out ++ ((lv.2.bind (fun v =>
              let s := trim (trimQuotes v)
              if s = [] then none else some (lv.1, s))).toList))
          [] := by
      congr 1
      funext out lv
      cases lv.2 with
      | none => simp
      | some s =>
        by_cases hs : trim (trimQuotes s) = []
        · simp [hs]
        · simp [hs]
    rw [hcal]
    have hfm := foldl_pushOpt_eq_filterMap
      (fun lv : Str × Option Str => lv.2.bind (fun v =>
        let s := trim (trimQuotes v)
        if s = [] then none else some (lv.1, s)))
      e.detailFields []
    simpa using hfm
  · intro v hv hne
    unfold TimelineEvent.list_line
    rw [hv]
    simp [Option.or, hne]
  · intro w h0 hw hne
    unfold TimelineEvent.list_line
    rw [h0, hw]
    simp [Option.or, hne]
  · intro h
    unfold TimelineEvent.list_line
    simp [h]

/-- Witness for C9's amended theorem: the whitespace-only file name of
`wsFileEvent` is displayed in its list line. -/
theorem display_empty_amended_witness :
    TimelineEvent.list_line wsFileEvent =
      trimQuotes (wsFileEvent.event_time.getD []) ++ " | ".data ++
        wsFileEvent.action_type.getD TimelineEvent.actionFallback ++ " | ".data ++
        trimQuotes " ".data :=
  (display_empty_amended wsFileEvent).2.1 " ".data rfl (by decide)

/-- A state in the Picker over two distinct data dates, with the
"Custom (pick dates from data)" entry selected. -/
def twoDateApp : App :=
  { events := [sampleProc, sampleConn], unique_dates := unique_dates_from_events [sampleProc, sampleConn], time_picker_list_state := some 5 }

/-- **C4.** Backward navigation of the range picker is symmetric: canceling
from state 5 moves to state 4 with the end-date candidates recomputed as the
dates ≥ the retained start date; canceling from state 4 moves to state 3 with
the hour candidates recomputed for the retained start date and the previously
chosen start hour re-selected when still present; and (with data unchanged)
after the forward steps 1→2→3→4→5 taken with each state's entry selection,
canceling 5→4→3→2→1 restores at each level the candidate list and selection
that state had when first entered. -/
theorem picker_backward_symmetric :
    (∀ (a : App) (s d : Int), a.time_filter_sub = .CustomRangeEndHour s d →
      (App.cancel_time_filter a).time_filter_sub = .CustomRangeEnd s ∧
      (App.cancel_time_filter a).date_picker_end_dates =
        a.unique_dates.filter (fun x => dateOf s ≤ x)) ∧
    (∀ (a : App) (s : Int), a.time_filter_sub = .CustomRangeEnd s →
      (App.cancel_time_filter a).time_filter_sub = .CustomRangeStartHour (dateOf s) ∧
      (App.cancel_time_filter a).date_picker_hours =
        unique_hours_for_date a.events (dateOf s) ∧
      (hourOf s ∈ unique_hours_for_date a.events (dateOf s) →
        ∃ i, (App.cancel_time_filter a).date_picker_list_state = some i ∧
          (unique_hours_for_date a.events (dateOf s)).getD i 0 = hourOf s)) ∧
    (∀ (a : App) (now : Int),
      a.unique_dates = unique_dates_from_events a.events →
      2 ≤ a.unique_dates.length →
      a.time_filter_sub = .Picker →
      a.time_picker_list_state = some (TIME_PRESETS.length - 2) →
      unique_hours_for_date a.events (a.unique_dates.getD 0 0) ≠ [] →
      let a1 := App.apply_time_picker_selection now a
      let a2 := App.apply_date_range_start a1
      let a3 := App.apply_date_range_start_hour a2
      let a4 := App.apply_date_range_end a3
      let b4 := App.cancel_time_filter a4
      let b3 := App.cancel_time_filter b4
      let b2 := App.cancel_time_filter b3
      let b1 := App.cancel_time_filter b2
      (b4.time_filter_sub = a3.time_filter_sub ∧
       b4.date_picker_end_dates = a3.date_picker_end_dates ∧
       b4.date_picker_list_state = a3.date_picker_list_state) ∧
      (b3.time_filter_sub = a2.time_filter_sub ∧
       b3.date_picker_hours = a2.date_picker_hours ∧
       b3.date_picker_list_state = a2.date_picker_list_state) ∧
      (b2.time_filter_sub = a1.time_filter_sub ∧
       b2.unique_dates = a1.unique_dates ∧
       b2.date_picker_list_state = a1.date_picker_list_state) ∧
      (b1.time_filter_sub = (App.start_time_filter a).time_filter_sub ∧
       b1.time_picker_list_state = (App.start_time_filter a).time_picker_list_state)) := by
  refine ⟨?_, ?_, ?_⟩
  · intro a s d hsub
    unfold App.cancel_time_filter
    rw [hsub]
    exact ⟨rfl, rfl⟩
  · intro a s hsub
    unfold App.cancel_time_filter
    rw [hsub]
    refine ⟨rfl, rfl, ?_⟩
    intro hmem
    obtain ⟨i, hfind, hget⟩ := findIdx?_mem_eq _ hmem
    have hne : unique_hours_for_date a.events (dateOf s) ≠ [] := by
      intro h; rw [h] at hmem; simp at hmem
    refine ⟨i, ?_, hget⟩
    simp only [hne, if_neg hne, hfind]
    rfl
  · intro a now hud hlen hsub hsel hh
    obtain ⟨d0, U1, hU⟩ : ∃ d0 U1, a.unique_dates = d0 :: U1 := by
      cases hu : a.unique_dates with
      | nil => rw [hu] at hlen; simp at hlen
      | cons x xs => exact ⟨x, xs, rfl⟩
    rw [show a.unique_dates.getD 0 0 = d0 by rw [hU]; rfl] at hh
    obtain ⟨h0, Hs, hHcons⟩ : ∃ h0 Hs, unique_hours_for_date a.events d0 = h0 :: Hs := by
      cases hhh : unique_hours_for_date a.events d0 with
      | nil => exact absurd hhh hh
      | cons x xs => exact ⟨x, xs, rfl⟩
    have h0lt : h0 < 24 := unique_hours_lt a.events d0 h0 (by rw [hHcons]; exact List.mem_cons_self _ _)
    have hUlen : 2 ≤ U1.length + 1 := by rw [hU] at hlen; simpa using hlen
    have hne : ¬ a.unique_dates = [] := by rw [hU]; simp
    have hl1 : ¬ a.unique_dates.length = 1 := by omega
    have heds : a.unique_dates.filter (fun d => decide (d0 ≤ d)) =
        d0 :: U1.filter (fun d => decide (d0 ≤ d)) := by
      rw [hU]
      simp
    have ha1 : App.apply_time_picker_selection now a =
        { a with time_filter_sub := .CustomRangeStart, date_picker_list_state := some 0 } := by
      unfold App.apply_time_picker_selection
      rw [hsel]
      simp [hne, hl1, TIME_PRESETS]
    have ha2 : App.apply_date_range_start (App.apply_time_picker_selection now a) =
        { a with time_filter_sub := .CustomRangeStartHour d0,
                 date_picker_hours := unique_hours_for_date a.events d0,
                 date_picker_list_state := some 0 } := by
      rw [ha1]
      unfold App.apply_date_range_start
      have hlt : 0 < a.unique_dates.length := by omega
      simp only [hlt, if_pos hlt]
      rw [show a.unique_dates.getD 0 0 = d0 by rw [hU]; rfl]
      simp [hHcons]
    have ha3 : App.apply_date_range_start_hour (App.apply_date_range_start
          (App.apply_time_picker_selection now a)) =
        { a with time_filter_sub := .CustomRangeEnd (andHms d0 h0 0 0),
                 date_picker_hours := unique_hours_for_date a.events d0,
                 date_picker_end_dates := a.unique_dates.filter (fun d => decide (d0 ≤ d)),
                 date_picker_list_state := some 0 } := by
      rw [ha2]
      unfold App.apply_date_range_start_hour
      simp only [hHcons]
      simp [hl1, heds]
    have ha4 : App.apply_date_range_end (App.apply_date_range_start_hour
          (App.apply_date_range_start (App.apply_time_picker_selection now a))) =
        { a with time_filter_sub := .CustomRangeEndHour (andHms d0 h0 0 0) d0,
                 date_picker_hours :=
                   (unique_hours_for_date a.events d0).filter (fun h => decide (h0 ≤ h)),
                 date_picker_end_dates := a.unique_dates.filter (fun d => decide (d0 ≤ d)),
                 date_picker_list_state := some 0 } := by
      rw [ha3]
      unfold App.apply_date_range_end
      simp only [heds]
      simp [dateOf_andHms d0 h0 h0lt, hourOf_andHms d0 h0 h0lt, hHcons]
    have hb4 : App.cancel_time_filter (App.apply_date_range_end
          (App.apply_date_range_start_hour (App.apply_date_range_start
            (App.apply_time_picker_selection now a)))) =
        { a with time_filter_sub := .CustomRangeEnd (andHms d0 h0 0 0),
                 date_picker_hours :=
                   (unique_hours_for_date a.events d0).filter (fun h => decide (h0 ≤ h)),
                 date_picker_end_dates := a.unique_dates.filter (fun d => decide (d0 ≤ d)),
                 date_picker_list_state := some 0 } := by
      rw [ha4]
      unfold App.cancel_time_filter
      simp only [dateOf_andHms d0 h0 h0lt, heds]
      simp
    have hb3 : App.cancel_time_filter (App.cancel_time_filter (App.apply_date_range_end
          (App.apply_date_range_start_hour (App.apply_date_range_start
            (App.apply_time_picker_selection now a))))) =
        { a with time_filter_sub := .CustomRangeStartHour d0,
                 date_picker_hours := unique_hours_for_date a.events d0,
                 date_picker_end_dates := a.unique_dates.filter (fun d => decide (d0 ≤ d)),
                 date_picker_list_state := some 0 } := by
      rw [hb4]
      unfold App.cancel_time_filter
      simp only [dateOf_andHms d0 h0 h0lt, hourOf_andHms d0 h0 h0lt, hHcons]
      simp [List.findIdx?_cons]
    have hb2 : App.cancel_time_filter (App.cancel_time_filter (App.cancel_time_filter
          (App.apply_date_range_end (App.apply_date_range_start_hour
            (App.apply_date_range_start (App.apply_time_picker_selection now a)))))) =
        { a with time_filter_sub := .CustomRangeStart,
                 date_picker_hours := ([] : List Nat),
                 date_picker_end_dates := a.unique_dates.filter (fun d => decide (d0 ≤ d)),
                 date_picker_list_state := some 0 } := by
      rw [hb3]
      unfold App.cancel_time_filter
      simp
    have hb1 : App.cancel_time_filter (App.cancel_time_filter (App.cancel_time_filter
          (App.cancel_time_filter (App.apply_date_range_end (App.apply_date_range_start_hour
            (App.apply_date_range_start (App.apply_time_picker_selection now a))))))) =
        { a with time_filter_sub := .Picker,
                 date_picker_hours := ([] : List Nat),
                 date_picker_end_dates := a.unique_dates.filter (fun d => decide (d0 ≤ d)),
                 date_picker_list_state := some 0,
                 time_picker_list_state := some 0 } := by
      rw [hb2]
      unfold App.cancel_time_filter
      simp [TIME_PRESETS]
    refine ⟨?_, ?_, ?_, ?_⟩
    · rw [hb4, ha3]
      exact ⟨rfl, rfl, rfl⟩
    · rw [hb3, ha2]
      exact ⟨rfl, rfl, rfl⟩
    · rw [hb2, ha1]
      exact ⟨rfl, rfl, rfl⟩
    · rw [hb1]
      unfold App.start_time_filter
      simp [TIME_PRESETS]

/-- Witness for C4's round trip at a concrete two-date data set. -/
theorem picker_backward_symmetric_witness :
    (App.cancel_time_filter (App.cancel_time_filter (App.cancel_time_filter
        (App.cancel_time_filter (App.apply_date_range_end (App.apply_date_range_start_hour
          (App.apply_date_range_start (App.apply_time_picker_selection 0
            twoDateApp)))))))).time_filter_sub = .Picker := by
  have h := (picker_backward_symmetric.2.2 twoDateApp 0 (by decide) (by decide) (by decide)
    (by decide) (by decide)).2.2.2.1
  rw [h]
  rfl

/-- The substrings `commit_time_filter` may hand to `parse_time` when
resolving this buffer. -/
def commit_candidates (raw : Str) : List Str :=
  let s := trim raw
  let s_lower := toLowerStr s
  (match (stripPrefixStr "after ".data s_lower).orElse
      (fun _ => stripPrefixStr "from ".data s_lower) with
   | some rest => [rest]
   | none => []) ++
  (match splitOnceStr " to ".data s_lower with
   | some p => [p.1, trim p.2]
   | none => []) ++
  (match stripPrefixStr "before ".data s_lower with
   | some rest => [rest]
   | none => []) ++
  (match splitOnceStr "..".data (trim raw) with
   | some p => [p.1, trim p.2]
   | none => []) ++
  [trim raw]

/-- No parse attempt `commit_time_filter` can make on this buffer hits the
`parse_time` panic. -/
def commit_no_panic (raw : Str) : Bool :=
  (commit_candidates raw).all (fun c => !parse_time_panics c)

/-- When neither `clear`/empty nor a relative expression applies,
`commit_time_filter` is the ordered alternative chain over the cleared-buffer
state, with the guidance fallback. -/
lemma commit_else (a : App) (now : Int)
    (hc : ¬ toLowerStr (trim a.time_input) = "clear".data)
    (he : ¬ trim a.time_input = [])
    (hrel : parse_relative_range (toLowerStr (trim a.time_input)) now = none) :
    App.commit_time_filter now a =
      (((((App.tryAfterFromAlt { a with time_input := ([] : Str) }
            (toLowerStr (trim a.time_input))).orElse
          (fun _ => App.tryToAlt { a with time_input := ([] : Str) }
            (toLowerStr (trim a.time_input)))).orElse
          (fun _ => App.tryBeforeAlt { a with time_input := ([] : Str) }
            (toLowerStr (trim a.time_input)))).orElse
          (fun _ => App.tryDotDotAlt { a with time_input := ([] : Str) } a.time_input)).orElse
          (fun _ => App.tryBareAlt { a with time_input := ([] : Str) } a.time_input)).getD
        { a with flash := some App.invalidTimeMsg } := by
  unfold App.commit_time_filter
  rw [if_neg (by simp [hc, he])]
  rw [hrel]

/-- The after/from alternative yields nothing when its parse fails. -/
lemma tryAfterFromAlt_none (a1 : App) (sl : Str)
    (h : ∀ r, (stripPrefixStr "after ".data sl).orElse
        (fun _ => stripPrefixStr "from ".data sl) = some r → parse_time r = none) :
    App.tryAfterFromAlt a1 sl = none := by
  unfold App.tryAfterFromAlt
  cases hs : (stripPrefixStr "after ".data sl).orElse
      (fun _ => stripPrefixStr "from ".data sl) with
  | none => rfl
  | some r => simp only [h r hs]

/-- The after/from alternative on success sets start only. -/
lemma tryAfterFromAlt_some (a1 : App) (sl rest : Str) (t : Int)
    (hs : (stripPrefixStr "after ".data sl).orElse
        (fun _ => stripPrefixStr "from ".data sl) = some rest)
    (hp : parse_time rest = some t) :
    ∃ r : App, App.tryAfterFromAlt a1 sl = some r ∧
      r.time_range_start = some t ∧ r.time_range_end = none ∧ r.mode = .Normal := by
  unfold App.tryAfterFromAlt
  simp only [hs, hp]
  exact ⟨_, rfl, rfl, rfl, rfl⟩

/-- The `to` alternative yields nothing when either side fails to parse. -/
lemma tryToAlt_none (a1 : App) (sl : Str)
    (h : ∀ x y, splitOnceStr " to ".data sl = some (x, y) →
      parse_time x = none ∨ parse_time (trim y) = none) :
    App.tryToAlt a1 sl = none := by
  unfold App.tryToAlt
  cases hs : splitOnceStr " to ".data sl with
  | none => rfl
  | some p =>
    obtain ⟨x, y⟩ := p
    rcases h x y hs with h' | h'
    · simp only [h']
    · simp only [h']
      cases parse_time x <;> rfl

/-- The `to` alternative on success sets both bounds. -/
lemma tryToAlt_some (a1 : App) (sl x y : Str) (t1 t2 : Int)
    (hs : splitOnceStr " to ".data sl = some (x, y))
    (hp1 : parse_time x = some t1) (hp2 : parse_time (trim y) = some t2) :
    ∃ r : App, App.tryToAlt a1 sl = some r ∧
      r.time_range_start = some t1 ∧ r.time_range_end = some t2 ∧ r.mode = .Normal := by
  unfold App.tryToAlt
  simp only [hs, hp1, hp2]
  exact ⟨_, rfl, rfl, rfl, rfl⟩

/-- The `before` alternative yields nothing when its parse fails. -/
lemma tryBeforeAlt_none (a1 : App) (sl : Str)
    (h : ∀ r, stripPrefixStr "before ".data sl = some r → parse_time r = none) :
    App.tryBeforeAlt a1 sl = none := by
  unfold App.tryBeforeAlt
  cases hs : stripPrefixStr "before ".data sl with
  | none => rfl
  | some r => simp only [h r hs]

/-- The `before` alternative on success sets the end bound only. -/
lemma tryBeforeAlt_some (a1 : App) (sl rest : Str) (t : Int)
    (hs : stripPrefixStr "before ".data sl = some rest)
    (hp : parse_time rest = some t) :
    ∃ r : App, App.tryBeforeAlt a1 sl = some r ∧
      r.time_range_start = none ∧ r.time_range_end = some t ∧ r.mode = .Normal := by
  unfold App.tryBeforeAlt
  simp only [hs, hp]
  exact ⟨_, rfl, rfl, rfl, rfl⟩

/-- The double-dot alternative yields nothing when either side fails. -/
lemma tryDotDotAlt_none (a1 : App) (raw : Str)
    (h : ∀ x y, splitOnceStr "..".data (trim raw) = some (x, y) →
      parse_time x = none ∨ parse_time (trim y) = none) :
    App.tryDotDotAlt a1 raw = none := by
  unfold App.tryDotDotAlt
  cases hs : splitOnceStr "..".data (trim raw) with
  | none => rfl
  | some p =>
    obtain ⟨x, y⟩ := p
    rcases h x y hs with h' | h'
    · simp only [h']
    · simp only [h']
      cases parse_time x <;> rfl

/-- The double-dot alternative on success sets both bounds. -/
lemma tryDotDotAlt_some (a1 : App) (raw x y : Str) (t1 t2 : Int)
    (hs : splitOnceStr "..".data (trim raw) = some (x, y))
    (hp1 : parse_time x = some t1) (hp2 : parse_time (trim y) = some t2) :
    ∃ r : App, App.tryDotDotAlt a1 raw = some r ∧
      r.time_range_start = some t1 ∧ r.time_range_end = some t2 ∧ r.mode = .Normal := by
  unfold App.tryDotDotAlt
  simp only [hs, hp1, hp2]
  exact ⟨_, rfl, rfl, rfl, rfl⟩

/-- The bare alternative yields nothing when the buffer fails to parse. -/
lemma tryBareAlt_none (a1 : App) (raw : Str)
    (h : parse_time (trim raw) = none) :
    App.tryBareAlt a1 raw = none := by
  unfold App.tryBareAlt
  simp only [h]

/-- The bare alternative on success sets start only and clears the end. -/
lemma tryBareAlt_some (a1 : App) (raw : Str) (t : Int)
    (hp : parse_time (trim raw) = some t) :
    ∃ r : App, App.tryBareAlt a1 raw = some r ∧
      r.time_range_start = some t ∧ r.time_range_end = none ∧ r.mode = .Normal := by
  unfold App.tryBareAlt
  simp only [hp]
  exact ⟨_, rfl, rfl, rfl, rfl⟩

/-- `clear` (or an empty buffer) clears both bounds and returns to Normal. -/
lemma commit_clear_branch (a : App) (now : Int)
    (h : toLowerStr (trim a.time_input) = "clear".data ∨ trim a.time_input = []) :
    (App.commit_time_filter now a).time_range_start = none ∧
    (App.commit_time_filter now a).time_range_end = none ∧
    (App.commit_time_filter now a).mode = .Normal := by
  unfold App.commit_time_filter
  rcases h with h | h
  · simp [h, App.apply_filters]
  · simp [h, App.apply_filters]

/-- A recognised relative expression sets exactly its resolved bounds. -/
lemma commit_relative_branch (a : App) (now : Int) (sB eB : Option Int)
    (hc : ¬ toLowerStr (trim a.time_input) = "clear".data)
    (he : ¬ trim a.time_input = [])
    (hrel : parse_relative_range (toLowerStr (trim a.time_input)) now = some (sB, eB)) :
    (App.commit_time_filter now a).time_range_start = sB ∧
    (App.commit_time_filter now a).time_range_end = eB ∧
    (App.commit_time_filter now a).mode = .Normal := by
  unfold App.commit_time_filter
  simp only [hc, he, hrel]
  rcases sB with _ | x <;> rcases eB with _ | y <;>
    simp [App.apply_filters]

/-- `after <t>` / `from <t>` with a parseable `<t>` sets the start bound only
and clears the end bound. -/
lemma commit_after_branch (a : App) (now : Int) (rest : Str) (t : Int)
    (hc : ¬ toLowerStr (trim a.time_input) = "clear".data)
    (he : ¬ trim a.time_input = [])
    (hrel : parse_relative_range (toLowerStr (trim a.time_input)) now = none)
    (hstrip : (stripPrefixStr "after ".data (toLowerStr (trim a.time_input))).orElse
        (fun _ => stripPrefixStr "from ".data (toLowerStr (trim a.time_input))) = some rest)
    (hpt : parse_time rest = some t) :
    (App.commit_time_filter now a).time_range_start = some t ∧
    (App.commit_time_filter now a).time_range_end = none ∧
    (App.commit_time_filter now a).mode = .Normal := by
  rw [commit_else a now hc he hrel]
  obtain ⟨r, hr, h1, h2, h3⟩ :=
    tryAfterFromAlt_some { a with time_input := ([] : Str) } _ rest t hstrip hpt
  rw [hr]
  simp [h1, h2, h3]

/-- `<t> to <t>` (after the earlier alternatives fail) sets both bounds. -/
lemma commit_to_branch (a : App) (now : Int) (x y : Str) (t1 t2 : Int)
    (hc : ¬ toLowerStr (trim a.time_input) = "clear".data)
    (he : ¬ trim a.time_input = [])
    (hrel : parse_relative_range (toLowerStr (trim a.time_input)) now = none)
    (hafter : ∀ r, (stripPrefixStr "after ".data (toLowerStr (trim a.time_input))).orElse
        (fun _ => stripPrefixStr "from ".data (toLowerStr (trim a.time_input))) = some r →
      parse_time r = none)
    (hsplit : splitOnceStr " to ".data (toLowerStr (trim a.time_input)) = some (x, y))
    (hp1 : parse_time x = some t1) (hp2 : parse_time (trim y) = some t2) :
    (App.commit_time_filter now a).time_range_start = some t1 ∧
    (App.commit_time_filter now a).time_range_end = some t2 ∧
    (App.commit_time_filter now a).mode = .Normal := by
  rw [commit_else a now hc he hrel]
  rw [tryAfterFromAlt_none _ _ hafter]
  obtain ⟨r, hr, h1, h2, h3⟩ :=
    tryToAlt_some { a with time_input := ([] : Str) } _ x y t1 t2 hsplit hp1 hp2
  rw [hr]
  simp [h1, h2, h3]

/-- `before <t>` (after the earlier alternatives fail) sets the end bound
only and clears the start bound. -/
lemma commit_before_branch (a : App) (now : Int) (rest : Str) (t : Int)
    (hc : ¬ toLowerStr (trim a.time_input) = "clear".data)
    (he : ¬ trim a.time_input = [])
    (hrel : parse_relative_range (toLowerStr (trim a.time_input)) now = none)
    (hafter : ∀ r, (stripPrefixStr "after ".data (toLowerStr (trim a.time_input))).orElse
        (fun _ => stripPrefixStr "from ".data (toLowerStr (trim a.time_input))) = some r →
      parse_time r = none)
    (hto : ∀ x y, splitOnceStr " to ".data (toLowerStr (trim a.time_input)) = some (x, y) →
      parse_time x = none ∨ parse_time (trim y) = none)
    (hstrip : stripPrefixStr "before ".data (toLowerStr (trim a.time_input)) = some rest)
    (hpt : parse_time rest = some t) :
    (App.commit_time_filter now a).time_range_start = none ∧
    (App.commit_time_filter now a).time_range_end = some t ∧
    (App.commit_time_filter now a).mode = .Normal := by
  rw [commit_else a now hc he hrel]
  rw [tryAfterFromAlt_none _ _ hafter, tryToAlt_none _ _ hto]
  obtain ⟨r, hr, h1, h2, h3⟩ :=
    tryBeforeAlt_some { a with time_input := ([] : Str) } _ rest t hstrip hpt
  rw [hr]
  simp [h1, h2, h3]

/-- `<t>..<t>` (after the earlier alternatives fail) sets both bounds. -/
lemma commit_dotdot_branch (a : App) (now : Int) (x y : Str) (t1 t2 : Int)
    (hc : ¬ toLowerStr (trim a.time_input) = "clear".data)
    (he : ¬ trim a.time_input = [])
    (hrel : parse_relative_range (toLowerStr (trim a.time_input)) now = none)
    (hafter : ∀ r, (stripPrefixStr "after ".data (toLowerStr (trim a.time_input))).orElse
        (fun _ => stripPrefixStr "from ".data (toLowerStr (trim a.time_input))) = some r →
      parse_time r = none)
    (hto : ∀ x y, splitOnceStr " to ".data (toLowerStr (trim a.time_input)) = some (x, y) →
      parse_time x = none ∨ parse_time (trim y) = none)
    (hbefore : ∀ r, stripPrefixStr "before ".data (toLowerStr (trim a.time_input)) = some r →
      parse_time r = none)
    (hsplit : splitOnceStr "..".data (trim a.time_input) = some (x, y))
    (hp1 : parse_time x = some t1) (hp2 : parse_time (trim y) = some t2) :
    (App.commit_time_filter now a).time_range_start = some t1 ∧
    (App.commit_time_filter now a).time_range_end = some t2 ∧
    (App.commit_time_filter now a).mode = .Normal := by
  rw [commit_else a now hc he hrel]
  rw [tryAfterFromAlt_none _ _ hafter, tryToAlt_none _ _ hto, tryBeforeAlt_none _ _ hbefore]
  obtain ⟨r, hr, h1, h2, h3⟩ :=
    tryDotDotAlt_some { a with time_input := ([] : Str) } _ x y t1 t2 hsplit hp1 hp2
  rw [hr]
  simp [h1, h2, h3]

/-- A bare `<t>` (after the earlier alternatives fail) sets the start bound
only and clears the end bound. -/
lemma commit_bare_branch (a : App) (now : Int) (t : Int)
    (hc : ¬ toLowerStr (trim a.time_input) = "clear".data)
    (he : ¬ trim a.time_input = [])
    (hrel : parse_relative_range (toLowerStr (trim a.time_input)) now = none)
    (hafter : ∀ r, (stripPrefixStr "after ".data (toLowerStr (trim a.time_input))).orElse
        (fun _ => stripPrefixStr "from ".data (toLowerStr (trim a.time_input))) = some r →
      parse_time r = none)
    (hto : ∀ x y, splitOnceStr " to ".data (toLowerStr (trim a.time_input)) = some (x, y) →
      parse_time x = none ∨ parse_time (trim y) = none)
    (hbefore : ∀ r, stripPrefixStr "before ".data (toLowerStr (trim a.time_input)) = some r →
      parse_time r = none)
    (hdd : ∀ x y, splitOnceStr "..".data (trim a.time_input) = some (x, y) →
      parse_time x = none ∨ parse_time (trim y) = none)
    (hpt : parse_time (trim a.time_input) = some t) :
    (App.commit_time_filter now a).time_range_start = some t ∧
    (App.commit_time_filter now a).time_range_end = none ∧
    (App.commit_time_filter now a).mode = .Normal := by
  rw [commit_else a now hc he hrel]
  rw [tryAfterFromAlt_none _ _ hafter, tryToAlt_none _ _ hto, tryBeforeAlt_none _ _ hbefore,
      tryDotDotAlt_none _ _ hdd]
  obtain ⟨r, hr, h1, h2, h3⟩ :=
    tryBareAlt_some { a with time_input := ([] : Str) } _ t hpt
  rw [hr]
  simp [h1, h2, h3]

/-- When no alternative matches, the buffer is preserved, guidance is
flashed, and bounds, picker state and mode are unchanged. -/
lemma commit_fallback_branch (a : App) (now : Int)
    (hc : ¬ toLowerStr (trim a.time_input) = "clear".data)
    (he : ¬ trim a.time_input = [])
    (hrel : parse_relative_range (toLowerStr (trim a.time_input)) now = none)
    (hafter : ∀ r, (stripPrefixStr "after ".data (toLowerStr (trim a.time_input))).orElse
        (fun _ => stripPrefixStr "from ".data (toLowerStr (trim a.time_input))) = some r →
      parse_time r = none)
    (hto : ∀ x y, splitOnceStr " to ".data (toLowerStr (trim a.time_input)) = some (x, y) →
      parse_time x = none ∨ parse_time (trim y) = none)
    (hbefore : ∀ r, stripPrefixStr "before ".data (toLowerStr (trim a.time_input)) = some r →
      parse_time r = none)
    (hdd : ∀ x y, splitOnceStr "..".data (trim a.time_input) = some (x, y) →
      parse_time x = none ∨ parse_time (trim y) = none)
    (hbare : parse_time (trim a.time_input) = none) :
    (App.commit_time_filter now a).time_input = a.time_input ∧
    (App.commit_time_filter now a).flash = some App.invalidTimeMsg ∧
    (App.commit_time_filter now a).time_range_start = a.time_range_start ∧
    (App.commit_time_filter now a).time_range_end = a.time_range_end ∧
    (App.commit_time_filter now a).time_filter_sub = a.time_filter_sub ∧
    (App.commit_time_filter now a).mode = a.mode := by
  rw [commit_else a now hc he hrel]
  rw [tryAfterFromAlt_none _ _ hafter, tryToAlt_none _ _ hto, tryBeforeAlt_none _ _ hbefore,
      tryDotDotAlt_none _ _ hdd, tryBareAlt_none _ _ hbare]
  exact ⟨rfl, rfl, rfl, rfl, rfl, rfl⟩

/-- An app whose time buffer holds `after 2024-01-01`. -/
def afterInputApp : App := { time_input := "after 2024-01-01".data }

/-- **C6.** Committing the free-text time buffer tries the grammar
alternatives in order: literal `clear` or empty clears both bounds; else the
relative vocabulary; else `after <t>`/`from <t>` sets start only; else
`<t> to <t>` sets both; else `before <t>` sets end only; else `<t>..<t>` sets
both; else a bare `<t>` sets start only and clears the end — so
`after 2024-01-01` yields start `2024-01-01 00:00:00` and no end bound.  When
no alternative matches, the buffer is preserved unchanged, a guidance message
is flashed, and the time bounds, picker state and mode do not change.  The
panic-freedom hypotheses tie the total model to the Rust code. -/
theorem commit_time_filter_grammar (a : App) (now : Int)
    (hnp : events_no_panic a.events = true)
    (hcp : commit_no_panic a.time_input = true) :
    ((toLowerStr (trim a.time_input) = "clear".data ∨ trim a.time_input = []) →
      (App.commit_time_filter now a).time_range_start = none ∧
      (App.commit_time_filter now a).time_range_end = none ∧
      (App.commit_time_filter now a).mode = .Normal) ∧
    (∀ sB eB, ¬ toLowerStr (trim a.time_input) = "clear".data →
      ¬ trim a.time_input = [] →
      parse_relative_range (toLowerStr (trim a.time_input)) now = some (sB, eB) →
      (App.commit_time_filter now a).time_range_start = sB ∧
      (App.commit_time_filter now a).time_range_end = eB) ∧
    (∀ rest t, ¬ toLowerStr (trim a.time_input) = "clear".data →
      ¬ trim a.time_input = [] →
      parse_relative_range (toLowerStr (trim a.time_input)) now = none →
      (stripPrefixStr "after ".data (toLowerStr (trim a.time_input))).orElse
        (fun _ => stripPrefixStr "from ".data (toLowerStr (trim a.time_input))) = some rest →
      parse_time rest = some t →
      (App.commit_time_filter now a).time_range_start = some t ∧
      (App.commit_time_filter now a).time_range_end = none) ∧
    (∀ x y t1 t2, ¬ toLowerStr (trim a.time_input) = "clear".data →
      ¬ trim a.time_input = [] →
      parse_relative_range (toLowerStr (trim a.time_input)) now = none →
      (∀ r, (stripPrefixStr "after ".data (toLowerStr (trim a.time_input))).orElse
        (fun _ => stripPrefixStr "from ".data (toLowerStr (trim a.time_input))) = some r →
        parse_time r = none) →
      splitOnceStr " to ".data (toLowerStr (trim a.time_input)) = some (x, y) →
      parse_time x = some t1 → parse_time (trim y) = some t2 →
      (App.commit_time_filter now a).time_range_start = some t1 ∧
      (App.commit_time_filter now a).time_range_end = some t2) ∧
    (∀ rest t, ¬ toLowerStr (trim a.time_input) = "clear".data →
      ¬ trim a.time_input = [] →
      parse_relative_range (toLowerStr (trim a.time_input)) now = none →
      (∀ r, (stripPrefixStr "after ".data (toLowerStr (trim a.time_input))).orElse
        (fun _ => stripPrefixStr "from ".data (toLowerStr (trim a.time_input))) = some r →
        parse_time r = none) →
      (∀ x y, splitOnceStr " to ".data (toLowerStr (trim a.time_input)) = some (x, y) →
        parse_time x = none ∨ parse_time (trim y) = none) →
      stripPrefixStr "before ".data (toLowerStr (trim a.time_input)) = some rest →
      parse_time rest = some t →
      (App.commit_time_filter now a).time_range_start = none ∧
      (App.commit_time_filter now a).time_range_end = some t) ∧
    (∀ x y t1 t2, ¬ toLowerStr (trim a.time_input) = "clear".data →
      ¬ trim a.time_input = [] →
      parse_relative_range (toLowerStr (trim a.time_input)) now = none →
      (∀ r, (stripPrefixStr "after ".data (toLowerStr (trim a.time_input))).orElse
        (fun _ => stripPrefixStr "from ".data (toLowerStr (trim a.time_input))) = some r →
        parse_time r = none) →
      (∀ x y, splitOnceStr " to ".data (toLowerStr (trim a.time_input)) = some (x, y) →
        parse_time x = none ∨ parse_time (trim y) = none) →
      (∀ r, stripPrefixStr "before ".data (toLowerStr (trim a.time_input)) = some r →
        parse_time r = none) →
      splitOnceStr "..".data (trim a.time_input) = some (x, y) →
      parse_time x = some t1 → parse_time (trim y) = some t2 →
      (App.commit_time_filter now a).time_range_start = some t1 ∧
      (App.commit_time_filter now a).time_range_end = some t2) ∧
    (∀ t, ¬ toLowerStr (trim a.time_input) = "clear".data →
      ¬ trim a.time_input = [] →
      parse_relative_range (toLowerStr (trim a.time_input)) now = none →
      (∀ r, (stripPrefixStr "after ".data (toLowerStr (trim a.time_input))).orElse
        (fun _ => stripPrefixStr "from ".data (toLowerStr (trim a.time_input))) = some r →
        parse_time r = none) →
      (∀ x y, splitOnceStr " to ".data (toLowerStr (trim a.time_input)) = some (x, y) →
        parse_time x = none ∨ parse_time (trim y) = none) →
      (∀ r, stripPrefixStr "before ".data (toLowerStr (trim a.time_input)) = some r →
        parse_time r = none) →
      (∀ x y, splitOnceStr "..".data (trim a.time_input) = some (x, y) →
        parse_time x = none ∨ parse_time (trim y) = none) →
      parse_time (trim a.time_input) = some t →
      (App.commit_time_filter now a).time_range_start = some t ∧
      (App.commit_time_filter now a).time_range_end = none) ∧
    ((¬ toLowerStr (trim a.time_input) = "clear".data) →
      ¬ trim a.time_input = [] →
      parse_relative_range (toLowerStr (trim a.time_input)) now = none →
      (∀ r, (stripPrefixStr "after ".data (toLowerStr (trim a.time_input))).orElse
        (fun _ => stripPrefixStr "from ".data (toLowerStr (trim a.time_input))) = some r →
        parse_time r = none) →
      (∀ x y, splitOnceStr " to ".data (toLowerStr (trim a.time_input)) = some (x, y) →
        parse_time x = none ∨ parse_time (trim y) = none) →
      (∀ r, stripPrefixStr "before ".data (toLowerStr (trim a.time_input)) = some r →
        parse_time r = none) →
      (∀ x y, splitOnceStr "..".data (trim a.time_input) = some (x, y) →
        parse_time x = none ∨ parse_time (trim y) = none) →
      parse_time (trim a.time_input) = none →
      (App.commit_time_filter now a).time_input = a.time_input ∧
      (App.commit_time_filter now a).flash = some App.invalidTimeMsg ∧
      (App.commit_time_filter now a).time_range_start = a.time_range_start ∧
      (App.commit_time_filter now a).time_range_end = a.time_range_end ∧
      (App.commit_time_filter now a).time_filter_sub = a.time_filter_sub ∧
      (App.commit_time_filter now a).mode = a.mode) ∧
    (a.time_input = "after 2024-01-01".data →
      (App.commit_time_filter now a).time_range_start = some (mkDT 2024 1 1 0 0 0) ∧
      (App.commit_time_filter now a).time_range_end = none) := by
  refine ⟨commit_clear_branch a now,
    fun sB eB hc he hrel =>
      ⟨(commit_relative_branch a now sB eB hc he hrel).1,
       (commit_relative_branch a now sB eB hc he hrel).2.1⟩,
    fun rest t hc he hrel hstrip hpt =>
      ⟨(commit_after_branch a now rest t hc he hrel hstrip hpt).1,
       (commit_after_branch a now rest t hc he hrel hstrip hpt).2.1⟩,
    fun x y t1 t2 hc he hrel hafter hsplit hp1 hp2 =>
      ⟨(commit_to_branch a now x y t1 t2 hc he hrel hafter hsplit hp1 hp2).1,
       (commit_to_branch a now x y t1 t2 hc he hrel hafter hsplit hp1 hp2).2.1⟩,
    fun rest t hc he hrel hafter hto hstrip hpt =>
      ⟨(commit_before_branch a now rest t hc he hrel hafter hto hstrip hpt).1,
       (commit_before_branch a now rest t hc he hrel hafter hto hstrip hpt).2.1⟩,
    fun x y t1 t2 hc he hrel hafter hto hbefore hsplit hp1 hp2 =>
      ⟨(commit_dotdot_branch a now x y t1 t2 hc he hrel hafter hto hbefore hsplit hp1 hp2).1,
       (commit_dotdot_branch a now x y t1 t2 hc he hrel hafter hto hbefore hsplit hp1 hp2).2.1⟩,
    fun t hc he hrel hafter hto hbefore hdd hpt =>
      ⟨(commit_bare_branch a now t hc he hrel hafter hto hbefore hdd hpt).1,
       (commit_bare_branch a now t hc he hrel hafter hto hbefore hdd hpt).2.1⟩,
    commit_fallback_branch a now,
    ?_⟩
  intro h
  have hc : ¬ toLowerStr (trim a.time_input) = "clear".data := by rw [h]; decide
  have he : ¬ trim a.time_input = [] := by rw [h]; decide
  have hrel : parse_relative_range (toLowerStr (trim a.time_input)) now = none := by
    rw [h]
    exact parse_relative_range_none _ now (by decide)
  have hstrip : (stripPrefixStr "after ".data (toLowerStr (trim a.time_input))).orElse
      (fun _ => stripPrefixStr "from ".data (toLowerStr (trim a.time_input))) =
        some "2024-01-01".data := by
    rw [h]; decide
  have hpt : parse_time "2024-01-01".data = some (mkDT 2024 1 1 0 0 0) := by decide
  exact ⟨(commit_after_branch a now _ _ hc he hrel hstrip hpt).1,
         (commit_after_branch a now _ _ hc he hrel hstrip hpt).2.1⟩

/-- Witness for C6: the concrete `after 2024-01-01` buffer. -/
theorem commit_time_filter_grammar_witness :
    (App.commit_time_filter 0 afterInputApp).time_range_start = some (mkDT 2024 1 1 0 0 0) ∧
    (App.commit_time_filter 0 afterInputApp).time_range_end = none :=
  (commit_time_filter_grammar afterInputApp 0 (by decide) (by decide)).2.2.2.2.2.2.2.2 rfl

/-- **C10 (code bug).** `parse_time` is not total: on the 11-byte input
`123456789é` (nine ASCII digits followed by a two-byte character) every
format fails, the cleaned input is at least 10 bytes long, and byte offset 10
falls inside the final character, so the Rust slice `&s[..10]` panics instead
of the function returning `None`. -/
theorem parse_time_panic_input :
    parse_time_panics "123456789é".data = true ∧
    cleanInput "123456789é".data = "123456789é".data ∧
    10 ≤ utf8Len "123456789é".data ∧
    byteTakeAux 10 "123456789é".data = none := by decide

end RustyLens
